import Mathlib

/-!
# nuGL: a shallow embedding of `nuGL.c` and proofs of its specification

The C functions of `src/nuGL.c` are translated to Lean functions.

* A pointer that may be `NULL` is an `Option`; `none` is `NULL`.
* `size_t` values are natural numbers, and every `size_t` addition and
  multiplication of the source is reduced modulo `2 ^ 64`.
* A heap block is the list of its bytes; reading or writing outside a block,
  a loop that never exits and a division by zero are reported as a `Fault`.
* Calls into OpenGL and libc that a property speaks about are recorded, in order, as
  a list of `Call`s; what the libraries answer (a generated name, whether `calloc`
  succeeds) is an explicit argument of the function that asks.
* Messages printed to `stderr` are not part of the model.
-/

namespace NuGL

/-! ## Machine model -/

/-- Number of values of a `size_t` (64-bit). -/
def SIZE_MOD : Nat := 2 ^ 64

/-- One `uint8_t`. -/
abbrev Byte := Fin 256

/-- Ways in which a C execution has no result. -/
inductive Fault
  | outOfBounds
  | nonTermination
  | divByZero
  deriving DecidableEq, Repr

deriving instance DecidableEq for Except

/-- The `calloc(n, 1)` of libc: `ok` tells whether the allocation succeeds, and a
successful allocation is a block of `n` zero bytes. -/
def calloc (ok : Bool) (n : Nat) : Option (List Byte) :=
  if ok then some (List.replicate n 0) else none

/-- The `memcpy(dst + off, src, n)` of libc on blocks `dst` and `src`: both ranges have
to lie inside their blocks. -/
def memcpy (dst : List Byte) (off : Nat) (src : List Byte) (n : Nat) :
    Except Fault (List Byte) :=
  if off + n ≤ dst.length ∧ n ≤ src.length then
    .ok (dst.take off ++ src.take n ++ dst.drop (off + n))
  else .error .outOfBounds

/-- Conversion of a `size_t` to a 32-bit unsigned integer (`GLuint`): the value modulo
`2 ^ 32`. -/
def toGLuint (x : Nat) : Nat := x % 2 ^ 32

/-- Conversion of a `size_t` to a 32-bit signed integer (`GLint`, `GLsizei`): the value
modulo `2 ^ 32`, read in two's complement. -/
def toGLint (x : Nat) : Int :=
  if x % 2 ^ 32 < 2 ^ 31 then ((x % 2 ^ 32 : Nat) : Int)
  else ((x % 2 ^ 32 : Nat) : Int) - 2 ^ 32

/-- Conversion of a `size_t` to the 32-bit signed `GLsizei`. -/
def toGLsizei (x : Nat) : Int := toGLint x

/-- Conversion of a `size_t` to the 64-bit signed `GLsizeiptr`: the value modulo `2 ^ 64`,
read in two's complement. -/
def toGLsizeiptr (x : Nat) : Int :=
  if x % 2 ^ 64 < 2 ^ 63 then ((x % 2 ^ 64 : Nat) : Int)
  else ((x % 2 ^ 64 : Nat) : Int) - 2 ^ 64

/-! ## Constants of the OpenGL and GLFW headers -/

/-- Value of `GL_VERTEX_SHADER` in the OpenGL headers. -/
def GL_VERTEX_SHADER : Nat := 0x8B31
/-- Value of `GL_FRAGMENT_SHADER` in the OpenGL headers. -/
def GL_FRAGMENT_SHADER : Nat := 0x8B30
/-- Value of `GL_GEOMETRY_SHADER` in the OpenGL headers. -/
def GL_GEOMETRY_SHADER : Nat := 0x8DD9
/-- Value of `GL_TESS_CONTROL_SHADER` in the OpenGL headers. -/
def GL_TESS_CONTROL_SHADER : Nat := 0x8E88
/-- Value of `GL_TESS_EVALUATION_SHADER` in the OpenGL headers. -/
def GL_TESS_EVALUATION_SHADER : Nat := 0x8E87
/-- Value of `GL_COMPUTE_SHADER` in the OpenGL headers. -/
def GL_COMPUTE_SHADER : Nat := 0x91B9
/-- Value of `GL_TRIANGLES` in the OpenGL headers. -/
def GL_TRIANGLES : Nat := 0x0004
/-- Value of `GL_ARRAY_BUFFER` in the OpenGL headers. -/
def GL_ARRAY_BUFFER : Nat := 0x8892
/-- Value of `GL_STATIC_DRAW` in the OpenGL headers. -/
def GL_STATIC_DRAW : Nat := 0x88E4
/-- Value of `GL_COMPILE_STATUS` in the OpenGL headers. -/
def GL_COMPILE_STATUS : Nat := 0x8B81
/-- Value of `GL_INFO_LOG_LENGTH` in the OpenGL headers. -/
def GL_INFO_LOG_LENGTH : Nat := 0x8B84
/-- Value of `GLFW_RELEASE` in `glfw3.h`. -/
def GLFW_RELEASE : Int := 0
/-- Value of `GLFW_PRESS` in `glfw3.h`. -/
def GLFW_PRESS : Int := 1
/-- Value of `GLFW_REPEAT` in `glfw3.h`. -/
def GLFW_REPEAT : Int := 2
/-- Value of `GLFW_KEY_LAST` in `glfw3.h` (it is `GLFW_KEY_MENU`). -/
def GLFW_KEY_LAST : Nat := 348
/-- Value of `GLFW_MOUSE_BUTTON_LEFT` in `glfw3.h`. -/
def GLFW_MOUSE_BUTTON_LEFT : Int := 0
/-- Value of `GLFW_MOUSE_BUTTON_RIGHT` in `glfw3.h`. -/
def GLFW_MOUSE_BUTTON_RIGHT : Int := 1
/-- The macro `KEY_COUNT` of `nuGL.h`. -/
def KEY_COUNT : Nat := GLFW_KEY_LAST + 1

/-! ## Meshes -/

/-- The struct `nu_Mesh` of `nuGL.h`. -/
structure nu_Mesh where
  builder_data : Option (List Byte)
  builder_alloced : Nat
  builder_added : Nat
  stride : Nat
  last_send_size : Nat
  VAO : Nat
  VBO : Nat
  render_mode : Nat
  deriving DecidableEq, Repr

/-- What can be handed to `free`. -/
inductive Block
  | bytes (data : List Byte)
  | chars (data : List Char)
  | mesh (m : nu_Mesh)
  deriving DecidableEq, Repr

/-- A call into a library, with the arguments the callee receives: an argument the source
passes as a `size_t` to a narrower parameter is recorded after its conversion. -/
inductive Call
  | glDeleteVertexArrays (name : Nat)
  | glGenVertexArrays
  | glBindVertexArray (name : Nat)
  | glDeleteBuffers (name : Nat)
  | glGenBuffers
  | glBindBuffer (target name : Nat)
  | glVertexAttribPointer (index : Nat) (size : Int) (type : Nat) (normalized : Bool)
      (stride : Int) (pointer : Nat)
  | glEnableVertexAttribArray (index : Nat)
  | glBufferData (target : Nat) (size : Int) (data : List Byte) (usage : Nat)
  | glDrawArrays (mode : Nat) (first count : Int)
  | glCreateShader (type : Nat)
  | glShaderSource (shader : Nat) (source : List Char) (length : Int)
  | glCompileShader (shader : Nat)
  | glGetShaderiv (shader pname : Nat)
  | glGetShaderInfoLog (shader : Nat)
  | glDeleteShader (shader : Nat)
  | fopen (path : List Char)
  | free (b : Block)
  deriving DecidableEq, Repr

/-- The loop `while(builder_added + num_bytes > builder_alloced) builder_alloced *= 2;`
of `nu_mesh_add_bytes`, with `need = builder_added + num_bytes`. It returns the value of
`builder_alloced` at which the loop exits, `none` when it has not exited within `fuel`
tests of the condition. -/
def nu_mesh_add_bytes_grow : Nat → Nat → Nat → Option Nat
  | 0, _, _ => none
  | fuel + 1, need, alloced =>
    if need > alloced then nu_mesh_add_bytes_grow fuel need (alloced * 2 % SIZE_MOD)
    else some alloced

/-- Fuel for the doubling loop. After 64 doublings a 64-bit value is `0`, and from `0`
the loop either exits at once or never: 65 tests decide every run
(`nu_mesh_add_bytes_grow_fuel`). -/
def GROW_FUEL : Nat := 65

/-- The last block of `nu_mesh_add_bytes` (`// Add bytes`): copy `num_bytes` bytes of `src`
to `builder_data + builder_added`, then advance `builder_added`. `buf` is the block
`builder_data` points to. -/
def nu_mesh_add_bytes_copy (m : nu_Mesh) (buf : List Byte) (num_bytes : Nat)
    (src : List Byte) : Except Fault (Option nu_Mesh) :=
  match memcpy buf m.builder_added src num_bytes with
  | .error e => .error e
  | .ok buf1 =>
    .ok (some { m with builder_data := some buf1,
                       builder_added := (m.builder_added + num_bytes) % SIZE_MOD })

/-- The middle block of `nu_mesh_add_bytes` (`// Resize buffer if too small`) followed by
the copy. `ok` is whether the `calloc` of the new block succeeds. -/
def nu_mesh_add_bytes_resize (ok : Bool) (m : nu_Mesh) (buf : List Byte) (num_bytes : Nat)
    (src : List Byte) : Except Fault (Option nu_Mesh) :=
  if (m.builder_added + num_bytes) % SIZE_MOD > m.builder_alloced then
    match nu_mesh_add_bytes_grow GROW_FUEL ((m.builder_added + num_bytes) % SIZE_MOD)
        m.builder_alloced with
    | none => .error .nonTermination
    | some alloced =>
      let m1 := { m with builder_alloced := alloced }
      match calloc ok alloced with
      | none => .ok (some m1)
      | some new =>
        match memcpy new 0 buf m1.builder_added with
        | .error e => .error e
        | .ok new1 =>
          nu_mesh_add_bytes_copy { m1 with builder_data := some new1 } new1 num_bytes src
  else nu_mesh_add_bytes_copy m buf num_bytes src

/-- The function `nu_mesh_add_bytes(mesh, num_bytes, src)`. `ok₁` is whether the first
`calloc` (of a builder that has no block yet) succeeds, `ok₂` whether the `calloc` of the
resize does. The result is the mesh after the call. -/
def nu_mesh_add_bytes (ok₁ ok₂ : Bool) (mesh : Option nu_Mesh) (num_bytes : Nat)
    (src : Option (List Byte)) : Except Fault (Option nu_Mesh) :=
  match mesh, src with
  | none, _ => .ok none
  | some m, none => .ok (some m)
  | some m, some s =>
    if num_bytes = 0 then .ok (some m)
    else
      match m.builder_data with
      | none =>
        match calloc ok₁ num_bytes with
        | none => .ok (some m)
        | some buf =>
          nu_mesh_add_bytes_resize ok₂
            { m with builder_data := some buf, builder_alloced := num_bytes } buf num_bytes s
      | some buf => nu_mesh_add_bytes_resize ok₂ m buf num_bytes s

/-- The bytes of the block `builder_data` points to (none for `NULL`). -/
def nu_Mesh.data (m : nu_Mesh) : List Byte := m.builder_data.getD []

/-- The builder is in a state the library produces while every allocation succeeds:
without a block nothing is added and nothing is allocated; with a block, the block has
`builder_alloced` bytes, at least one, and `builder_added` of them are in use. -/
def nu_Mesh.WF (m : nu_Mesh) : Prop :=
  match m.builder_data with
  | none => m.builder_added = 0 ∧ m.builder_alloced = 0
  | some buf =>
    buf.length = m.builder_alloced ∧ 0 < m.builder_alloced ∧
      m.builder_added ≤ m.builder_alloced

/-- Successive calls `nu_mesh_add_bytes(mesh, |b|, b)` for the blocks `b` of a list, in
order, every allocation succeeding. -/
def add_all : Option nu_Mesh → List (List Byte) → Except Fault (Option nu_Mesh)
  | mesh, [] => .ok mesh
  | mesh, b :: rest =>
    match nu_mesh_add_bytes true true mesh b.length (some b) with
    | .error e => .error e
    | .ok mesh1 => add_all mesh1 rest

/-- A builder holding the three bytes `1, 2, 3` in a block of four. -/
def example_mesh : nu_Mesh :=
  { builder_data := some [1, 2, 3, 0], builder_alloced := 4, builder_added := 3,
    stride := 1, last_send_size := 0, VAO := 1, VBO := 1, render_mode := GL_TRIANGLES }

/-! ## Shaders -/

/-- The terminator of a C string. -/
def NUL : Char := Char.ofNat 0

/-- The `strlen` of libc. A C string is given by the characters stored from the pointer
on: the string ends before the first `NUL`, and where the list ends a `NUL` follows. -/
def strlen : List Char → Nat
  | [] => 0
  | c :: cs => if c = NUL then 0 else strlen cs + 1

/-- The characters of a C string, terminator excluded. -/
def cstr (s : List Char) : List Char := s.take (strlen s)

/-- The `strncmp(a, b, n)` of libc: the difference of the first two characters that differ
among the first `n`, `0` when there is none before `n` characters or the end of both
strings. -/
def strncmp : List Char → List Char → Nat → Int
  | _, _, 0 => 0
  | a, b, n + 1 =>
    if a.headD NUL ≠ b.headD NUL then ((a.headD NUL).toNat : Int) - ((b.headD NUL).toNat : Int)
    else if a.headD NUL = NUL then 0
    else strncmp a.tail b.tail n

/-- The array `shader_exts` of `nu_get_shader_type`. -/
def shader_exts : List (List Char) :=
  [".vert".toList, ".frag".toList, ".geom".toList, ".tesc".toList, ".tese".toList,
    ".comp".toList]

/-- The array `shader_types` of `nu_get_shader_type`. -/
def shader_types : List Nat :=
  [GL_VERTEX_SHADER, GL_FRAGMENT_SHADER, GL_GEOMETRY_SHADER, GL_TESS_CONTROL_SHADER,
    GL_TESS_EVALUATION_SHADER, GL_COMPUTE_SHADER]

/-- The `for` loop of `nu_get_shader_type` over the remaining entries of the two arrays:
the first extension equal to the five characters at `ext_ptr` gives the type and ends the
loop; `shader_type` stays `0` when there is none. -/
def nu_get_shader_type_loop (ext_ptr : List Char) : List (List Char) → List Nat → Nat
  | e :: es, t :: ts =>
    if strncmp e ext_ptr 5 = 0 then t else nu_get_shader_type_loop ext_ptr es ts
  | _, _ => 0

/-- The function `nu_get_shader_type(filename)`. -/
def nu_get_shader_type (filename : Option (List Char)) : Nat :=
  match filename with
  | none => 0
  | some name =>
    if strlen name < 5 then 0
    else nu_get_shader_type_loop (name.drop (strlen name - 5)) shader_exts shader_types

/-- What the file system and the allocator answer to `nu_read_file`: the content of the
file at a path (`none` when `fopen` fails), whether `calloc` succeeds and how many
characters `fread` delivers. -/
structure FileEnv where
  content : List Char → Option (List Char)
  calloc_ok : Bool
  fread_count : Nat

/-- The function `nu_read_file(file_loc)`: the content of the file as a C string, or
`NULL`. The access to the file is recorded by its `fopen`; when `fread` delivers fewer
characters than the file has, the buffer, `file_len + 1` characters that are zero after
those read, is freed. -/
def nu_read_file (env : FileEnv) (file_loc : Option (List Char)) :
    Option (List Char) × List Call :=
  match file_loc with
  | none => (none, [])
  | some loc =>
    match env.content (cstr loc) with
    | none => (none, [.fopen (cstr loc)])
    | some out =>
      if out.length = 0 then (none, [.fopen (cstr loc)])
      else if env.calloc_ok = false then (none, [.fopen (cstr loc)])
      else if env.fread_count ≠ out.length then
        (none, [.fopen (cstr loc),
                .free (.chars (out.take env.fread_count ++
                  List.replicate (out.length + 1 - env.fread_count) NUL))])
      else (some out, [.fopen (cstr loc)])

/-- What the libraries answer to `nu_compile_shader`: the file system, the name
`glCreateShader` returns, whether the compilation succeeds, the info log and whether the
`calloc` for the log succeeds. -/
structure ShaderEnv where
  file : FileEnv
  shader : Nat
  compile_ok : Bool
  info_log : List Char
  log_calloc_ok : Bool

/-- The function `nu_compile_shader(shader_loc)`: the name of the compiled shader, `0` on
failure, and the library calls made. -/
def nu_compile_shader (env : ShaderEnv) (shader_loc : Option (List Char)) :
    Nat × List Call :=
  match shader_loc with
  | none => (0, [])
  | some loc =>
    if nu_get_shader_type (some loc) = 0 then (0, [])
    else
      match nu_read_file env.file (some loc) with
      | (none, calls) => (0, calls)
      | (some shader_source, calls) =>
        let calls1 := calls ++
          [.glCreateShader (nu_get_shader_type (some loc)),
           .glShaderSource env.shader shader_source (toGLint (strlen shader_source)),
           .free (.chars shader_source),
           .glCompileShader env.shader,
           .glGetShaderiv env.shader GL_COMPILE_STATUS]
        if env.compile_ok = false then
          if env.log_calloc_ok = false then
            (0, calls1 ++ [.glGetShaderiv env.shader GL_INFO_LOG_LENGTH,
                           .glDeleteShader env.shader])
          else
            (0, calls1 ++ [.glGetShaderiv env.shader GL_INFO_LOG_LENGTH,
                           .glGetShaderInfoLog env.shader,
                           .glDeleteShader env.shader,
                           .free (.chars env.info_log)])
        else (env.shader, calls1)

/-! ## Windows and input -/

/-- A C `double`, as the 64 bits that represent it. The functions modelled here only copy
such values. -/
abbrev Double := Nat

/-- The struct `nu_Window` of `nuGL.h`. `glfw_window` is the address of the GLFW window,
`0` for `NULL`. -/
structure nu_Window where
  glfw_window : Nat
  width : Nat
  height : Nat
  keys : Fin KEY_COUNT → Bool
  last_keys : Fin KEY_COUNT → Bool
  mouse_x : Double
  mouse_y : Double
  last_mouse_x : Double
  last_mouse_y : Double
  mouse_left : Bool
  mouse_right : Bool
  last_mouse_left : Bool
  last_mouse_right : Bool
  focused : Bool

/-- The function `nu_create_window(width, height, title, fullscreen)`. `glfwInit_ok`,
`glewInit_ok` and `calloc_ok` are whether those calls succeed, `glfw_window` is the
address `glfwCreateWindow` returns (`0` for `NULL`). The struct is `calloc`ed, all bits
zero, and `glfw_window`, `width` and `height` are then set. The calls into GLFW are not
recorded. -/
def nu_create_window (glfwInit_ok : Bool) (glfw_window : Nat) (glewInit_ok calloc_ok : Bool)
    (width height : Nat) (_title : Option (List Char)) (_fullscreen : Bool) :
    Option nu_Window :=
  if glfwInit_ok = false then none
  else if glfw_window = 0 then none
  else if glewInit_ok = false then none
  else if calloc_ok = false then none
  else
    some { glfw_window := glfw_window, width := width, height := height,
           keys := fun _ => false, last_keys := fun _ => false,
           mouse_x := 0, mouse_y := 0, last_mouse_x := 0, last_mouse_y := 0,
           mouse_left := false, mouse_right := false,
           last_mouse_left := false, last_mouse_right := false, focused := false }

/-- The window `nu_create_window(640, 480, NULL, false)` returns when GLFW gives the
window address 1. -/
def example_window : nu_Window :=
  { glfw_window := 1, width := 640, height := 480,
    keys := fun _ => false, last_keys := fun _ => false,
    mouse_x := 0, mouse_y := 0, last_mouse_x := 0, last_mouse_y := 0,
    mouse_left := false, mouse_right := false,
    last_mouse_left := false, last_mouse_right := false, focused := false }

/-- The function `key_callback`, on the window GLFW delivers as user pointer. -/
def key_callback (window : Option nu_Window) (key _scancode action _mods : Int) :
    Option nu_Window :=
  match window with
  | none => none
  | some w =>
    if h : 0 ≤ key ∧ key ≤ (GLFW_KEY_LAST : Int) then
      some { w with keys := (Function.update w.keys
        (⟨key.toNat, by unfold KEY_COUNT; omega⟩ : Fin KEY_COUNT)
        (decide (action ≠ GLFW_RELEASE))) }
    else some w

/-- The function `cursor_pos_callback`. -/
def cursor_pos_callback (window : Option nu_Window) (xpos ypos : Double) :
    Option nu_Window :=
  match window with
  | none => none
  | some w => some { w with mouse_x := xpos, mouse_y := ypos }

/-- The function `mouse_button_callback`. -/
def mouse_button_callback (window : Option nu_Window) (button action _mods : Int) :
    Option nu_Window :=
  match window with
  | none => none
  | some w =>
    let w1 :=
      if button = GLFW_MOUSE_BUTTON_LEFT then
        { w with mouse_left := decide (action = GLFW_PRESS) } else w
    some (if button = GLFW_MOUSE_BUTTON_RIGHT then
      { w1 with mouse_right := decide (action = GLFW_PRESS) } else w1)

/-- The `for` loop of `nu_update_input`: `last_keys[i] = keys[i]` for `i` from `0` to
`KEY_COUNT - 1`. -/
def nu_update_input_loop (w : nu_Window) : nu_Window :=
  (List.finRange KEY_COUNT).foldl
    (fun w i => { w with last_keys := Function.update w.last_keys i (w.keys i) }) w

/-- The function `nu_update_input(window)`. -/
def nu_update_input (window : Option nu_Window) : Option nu_Window :=
  match window with
  | none => none
  | some w =>
    let w1 := nu_update_input_loop w
    some { w1 with last_mouse_x := w1.mouse_x, last_mouse_y := w1.mouse_y,
                   last_mouse_left := w1.mouse_left, last_mouse_right := w1.mouse_right }

/-- The function `nu_get_key_state(window, keycode)`; an index outside the array `keys`
is a fault. -/
def nu_get_key_state (window : Option nu_Window) (keycode : Int) : Except Fault Bool :=
  match window with
  | none => .ok false
  | some w =>
    if h : 0 ≤ keycode ∧ keycode < (KEY_COUNT : Int) then
      .ok (w.keys ⟨keycode.toNat, by omega⟩)
    else .error .outOfBounds

/-- The function `nu_get_key_pressed(window, keycode)`; an index outside the arrays `keys`
and `last_keys` is a fault. -/
def nu_get_key_pressed (window : Option nu_Window) (keycode : Int) : Except Fault Bool :=
  match window with
  | none => .ok false
  | some w =>
    if h : 0 ≤ keycode ∧ keycode < (KEY_COUNT : Int) then
      .ok (w.keys ⟨keycode.toNat, by omega⟩ && !w.last_keys ⟨keycode.toNat, by omega⟩)
    else .error .outOfBounds

/-- What happens to a window between two queries: a callback of GLFW or the call of
`nu_update_input` that ends a frame. -/
inductive InputEvent
  | key (key scancode action mods : Int)
  | cursor (xpos ypos : Double)
  | button (button action mods : Int)
  | update
  deriving DecidableEq, Repr

/-- The effect of one event on the window. -/
def InputEvent.step (e : InputEvent) (window : Option nu_Window) : Option nu_Window :=
  match e with
  | .key k scancode action mods => key_callback window k scancode action mods
  | .cursor xpos ypos => cursor_pos_callback window xpos ypos
  | .button b action mods => mouse_button_callback window b action mods
  | .update => nu_update_input window

/-- The window after a history of events, the most recent event first. -/
def run_events (window : Option nu_Window) : List InputEvent → Option nu_Window
  | [] => window
  | e :: earlier => e.step (run_events window earlier)

/-- The action of the most recent `key_callback` for key `k` in a history (most recent
event first), `none` when the key had no event. -/
def last_key_action (k : Int) : List InputEvent → Option Int
  | [] => none
  | .key key _ action _ :: earlier =>
    if key = k then some action else last_key_action k earlier
  | _ :: earlier => last_key_action k earlier

/-- Key `k` is down after a history: its most recent `key_callback` action was not
`GLFW_RELEASE`. A key that never had an event is up. -/
def key_down (k : Int) (history : List InputEvent) : Bool :=
  match last_key_action k history with
  | none => false
  | some action => decide (action ≠ GLFW_RELEASE)

/-- The events of a history (most recent first) up to and including the most recent
`nu_update_input`, `none` when there was none. -/
def until_last_update : List InputEvent → Option (List InputEvent)
  | [] => none
  | .update :: earlier => some (.update :: earlier)
  | _ :: earlier => until_last_update earlier

/-- Key `k` was down at the most recent `nu_update_input` of a history. Before the first
`nu_update_input` no key counts as having been down. -/
def key_down_at_last_update (k : Int) (history : List InputEvent) : Bool :=
  match until_last_update history with
  | none => false
  | some h => key_down k h

/-! ## Mesh layout, transfer and drawing -/

/-- Value of `GL_FLOAT` in the OpenGL headers. -/
def GL_FLOAT : Nat := 0x1406
/-- Value of `GL_INT` in the OpenGL headers. -/
def GL_INT : Nat := 0x1404

/-- The first `for` loop of `nu_define_layout` (`// Calculate stride`), with `remaining`
iterations to go from index `i`: `stride += component_sizes[i] * component_counts[i]` in
`size_t` arithmetic. -/
def nu_define_layout_stride (component_sizes component_counts : List Nat) :
    Nat → Nat → Nat → Except Fault Nat
  | 0, _, stride => .ok stride
  | remaining + 1, i, stride =>
    match component_sizes[i]?, component_counts[i]? with
    | some size, some count =>
      nu_define_layout_stride component_sizes component_counts remaining (i + 1)
        ((stride + size * count % SIZE_MOD) % SIZE_MOD)
    | _, _ => .error .outOfBounds

/-- The second `for` loop of `nu_define_layout` (`// Attrib pointer to each component`),
with `remaining` iterations to go from index `i`: the calls made and the value of `offset`
when the loop ends. `glVertexAttribPointer` takes the index as `GLuint`, the count as
`GLint` and the stride as `GLsizei`; the offset is passed as a pointer of 64 bits. -/
def nu_define_layout_attribs (component_sizes component_counts component_types : List Nat)
    (stride : Nat) : Nat → Nat → Nat → Except Fault (List Call × Nat)
  | 0, _, offset => .ok ([], offset)
  | remaining + 1, i, offset =>
    match component_sizes[i]?, component_counts[i]?, component_types[i]? with
    | some size, some count, some type =>
      match nu_define_layout_attribs component_sizes component_counts component_types stride
          remaining (i + 1) ((offset + size * count % SIZE_MOD) % SIZE_MOD) with
      | .error e => .error e
      | .ok (calls, last) =>
        .ok (.glVertexAttribPointer (toGLuint i) (toGLint count) type false
                (toGLsizei stride) offset ::
              .glEnableVertexAttribArray (toGLuint i) :: calls, last)
    | _, _, _ => .error .outOfBounds

/-- The function `nu_define_layout`. `genVAO` and `genVBO` are the names OpenGL generates;
`VAO` and `VBO` are the values the two pointers hold at the call. The result is the new
`*VAO`, the new `*VBO`, the returned stride and the OpenGL calls made. -/
def nu_define_layout (genVAO genVBO VAO VBO num_components : Nat)
    (component_sizes component_counts component_types : List Nat) :
    Except Fault (Nat × Nat × Nat × List Call) :=
  match nu_define_layout_stride component_sizes component_counts num_components 0 0 with
  | .error e => .error e
  | .ok stride =>
    match nu_define_layout_attribs component_sizes component_counts component_types stride
        num_components 0 0 with
    | .error e => .error e
    | .ok (calls, _) =>
      .ok (genVAO, genVBO, stride,
        [.glDeleteVertexArrays VAO, .glGenVertexArrays, .glBindVertexArray genVAO,
         .glDeleteBuffers VBO, .glGenBuffers, .glBindBuffer GL_ARRAY_BUFFER genVBO] ++ calls)

/-- The function `nu_create_mesh`. `calloc_ok` is whether the `calloc` of the struct
succeeds. The result is the mesh returned (`none` for `NULL`) and the library calls
made. -/
def nu_create_mesh (calloc_ok : Bool) (genVAO genVBO num_components : Nat)
    (component_sizes component_counts component_types : List Nat) :
    Except Fault (Option nu_Mesh × List Call) :=
  if num_components = 0 then .ok (none, [])
  else if calloc_ok = false then .ok (none, [])
  else
    match nu_define_layout genVAO genVBO 0 0 num_components component_sizes component_counts
        component_types with
    | .error e => .error e
    | .ok (vao, vbo, stride, calls) =>
      let out : nu_Mesh :=
        { builder_data := none, builder_alloced := 0, builder_added := 0, stride := stride,
          last_send_size := 0, VAO := vao, VBO := vbo, render_mode := 0 }
      if stride = 0 then
        .ok (none, calls ++ [.glDeleteVertexArrays vao, .glDeleteBuffers vbo, .free (.mesh out)])
      else .ok (some { out with render_mode := GL_TRIANGLES }, calls)

/-- The function `nu_destroy_mesh(mesh)` on a handle `nu_Mesh **`: `none` is a null handle,
`some none` a handle to `NULL`. The result is what the handle points to after the call and
the library calls made. -/
def nu_destroy_mesh (mesh : Option (Option nu_Mesh)) : Option (Option nu_Mesh) × List Call :=
  match mesh with
  | none => (none, [])
  | some none => (some none, [])
  | some (some m) =>
    (some none,
      (match m.builder_data with
       | some buf => [.free (.bytes buf)]
       | none => []) ++ [.free (.mesh m)])

/-- The function `nu_free_mesh(mesh)`: the mesh after the call and the library calls
made. -/
def nu_free_mesh (mesh : Option nu_Mesh) : Option nu_Mesh × List Call :=
  match mesh with
  | none => (none, [])
  | some m =>
    (some { m with builder_data := none, builder_added := 0, builder_alloced := 0 },
      match m.builder_data with
      | some buf => [.free (.bytes buf)]
      | none => [])

/-- The function `nu_bind_mesh(mesh)`. -/
def nu_bind_mesh (mesh : Option nu_Mesh) : List Call :=
  match mesh with
  | none => []
  | some m => [.glBindVertexArray m.VAO, .glBindBuffer GL_ARRAY_BUFFER m.VBO]

/-- The function `nu_unbind_mesh()`. -/
def nu_unbind_mesh : List Call :=
  [.glBindVertexArray 0, .glBindBuffer GL_ARRAY_BUFFER 0]

/-- The function `nu_mesh_set_render_mode(mesh, render_mode)`. -/
def nu_mesh_set_render_mode (mesh : Option nu_Mesh) (render_mode : Nat) : Option nu_Mesh :=
  match mesh with
  | none => none
  | some m => some { m with render_mode := render_mode }

/-- The function `nu_send_mesh(mesh)`: the mesh after the call and the OpenGL calls made.
`glBufferData` reads `builder_added` bytes of the builder block. -/
def nu_send_mesh (mesh : Option nu_Mesh) : Except Fault (Option nu_Mesh × List Call) :=
  match mesh with
  | none => .ok (none, [])
  | some m =>
    match m.builder_data with
    | none => .ok (some m, [])
    | some buf =>
      if m.VAO = 0 ∨ m.VBO = 0 then .ok (some m, [])
      else if m.builder_added ≤ buf.length then
        .ok (some { m with last_send_size := m.builder_added },
          nu_bind_mesh (some { m with last_send_size := m.builder_added }) ++
            [.glBufferData GL_ARRAY_BUFFER (toGLsizeiptr m.builder_added)
              (buf.take m.builder_added)
              GL_STATIC_DRAW] ++ nu_unbind_mesh)
      else .error .outOfBounds

/-- The function `nu_render_mesh(mesh)`: the OpenGL calls made. `glDrawArrays` takes the
vertex count as the 32-bit `GLsizei`. -/
def nu_render_mesh (mesh : Option nu_Mesh) : Except Fault (List Call) :=
  match mesh with
  | none => .ok []
  | some m =>
    if m.last_send_size = 0 then .ok []
    else if m.stride = 0 then .error .divByZero
    else
      .ok (nu_bind_mesh (some m) ++
        [.glDrawArrays m.render_mode 0 (toGLsizei (m.last_send_size / m.stride))] ++
        nu_unbind_mesh)

/-- A call of the mesh interface on one mesh. -/
inductive MeshOp
  | add_bytes (ok₁ ok₂ : Bool) (num_bytes : Nat) (src : Option (List Byte))
  | send
  | free
  | set_render_mode (render_mode : Nat)
  | render
  deriving DecidableEq, Repr

/-- The mesh after one call of the interface. -/
def MeshOp.step (op : MeshOp) (mesh : Option nu_Mesh) : Except Fault (Option nu_Mesh) :=
  match op with
  | .add_bytes ok₁ ok₂ num_bytes src => nu_mesh_add_bytes ok₁ ok₂ mesh num_bytes src
  | .send => (nu_send_mesh mesh).map Prod.fst
  | .free => .ok (nu_free_mesh mesh).1
  | .set_render_mode mode => .ok (nu_mesh_set_render_mode mesh mode)
  | .render => (nu_render_mesh mesh).map (fun _ => mesh)

/-- The mesh after a history of calls, the most recent call first. -/
def run_ops (mesh : Option nu_Mesh) : List MeshOp → Except Fault (Option nu_Mesh)
  | [] => .ok mesh
  | op :: earlier =>
    match run_ops mesh earlier with
    | .error e => .error e
    | .ok mesh1 => op.step mesh1

/-- The arguments of a history of calls are `size_t` values. -/
def MeshOp.sized : MeshOp → Prop
  | .add_bytes _ _ num_bytes _ => num_bytes < SIZE_MOD
  | _ => True

/-- The value of `builder_added` at the most recent `nu_send_mesh` of a history (most
recent call first) that found a non-null builder and non-zero `VAO` and `VBO`; `none` when
no `nu_send_mesh` of the history did. -/
def last_sent (mesh : Option nu_Mesh) : List MeshOp → Option Nat
  | [] => none
  | .send :: earlier =>
    match run_ops mesh earlier with
    | .ok (some m) =>
      if m.builder_data ≠ none ∧ m.VAO ≠ 0 ∧ m.VBO ≠ 0 then some m.builder_added
      else last_sent mesh earlier
    | _ => last_sent mesh earlier
  | _ :: earlier => last_sent mesh earlier

/-- The byte offset of component `i` in the packed layout: the sum over `j < i` of
`component_sizes[j] * component_counts[j]`. -/
def packed_offset (component_sizes component_counts : List Nat) (i : Nat) : Nat :=
  ((List.range i).map (fun j => component_sizes.getD j 0 * component_counts.getD j 0)).sum

/-- What holds of a mesh made by `nu_create_mesh` after any calls of the interface that
return, whether their allocations succeed or not: the stride is not `0`, the sizes are
`size_t` values, and the builder has a block exactly when bytes have been added. -/
def nu_Mesh.Inv (m : nu_Mesh) : Prop :=
  m.stride ≠ 0 ∧ m.builder_alloced < SIZE_MOD ∧
    match m.builder_data with
    | none => m.builder_added = 0
    | some buf => buf.length < SIZE_MOD ∧ 0 < m.builder_added

/-- The mesh `nu_create_mesh` returns for one component of size 1 and count 2, OpenGL
generating the names 1 and 2. -/
def example_created : nu_Mesh :=
  { builder_data := none, builder_alloced := 0, builder_added := 0, stride := 2,
    last_send_size := 0, VAO := 1, VBO := 2, render_mode := GL_TRIANGLES }

/-- The OpenGL calls of that `nu_create_mesh`. -/
def example_created_calls : List Call :=
  [.glDeleteVertexArrays 0, .glGenVertexArrays, .glBindVertexArray 1,
   .glDeleteBuffers 0, .glGenBuffers, .glBindBuffer GL_ARRAY_BUFFER 2,
   .glVertexAttribPointer 0 2 GL_FLOAT false 2 0, .glEnableVertexAttribArray 0]

/-- An environment in which every file holds the one character `x`, every allocation
succeeds and every shader compiles, to the name 7. -/
def example_shader_env : ShaderEnv :=
  { file := { content := fun _ => some "x".toList, calloc_ok := true, fread_count := 1 },
    shader := 7, compile_ok := true, info_log := [], log_calloc_ok := true }

/-- The mesh `nu_create_mesh` returns for one component of size 1 and count 1 (stride 1),
OpenGL generating the names 1 and 2. -/
def example_unit_created : nu_Mesh :=
  { builder_data := none, builder_alloced := 0, builder_added := 0, stride := 1,
    last_send_size := 0, VAO := 1, VBO := 2, render_mode := GL_TRIANGLES }

/-- That mesh after `2 ^ 32 + 3` zero bytes have been added in one call and sent. -/
def example_big_sent : nu_Mesh :=
  { builder_data := some (List.replicate 4294967299 0), builder_alloced := 4294967299,
    builder_added := 4294967299, stride := 1, last_send_size := 4294967299,
    VAO := 1, VBO := 2, render_mode := GL_TRIANGLES }

/-! ## Proofs -/

theorem nu_mesh_add_bytes_grow_spec (need : Nat) (hneed : need ≤ 2 ^ 63) :
    ∀ (j fuel a : Nat), 0 < a → need ≤ a * 2 ^ j → j < fuel →
      ∃ k, k ≤ j ∧ nu_mesh_add_bytes_grow fuel need a = some (a * 2 ^ k) ∧
        need ≤ a * 2 ^ k ∧ ∀ i, i < k → a * 2 ^ i < need := by
  intro j
  induction j with
  | zero =>
    intro fuel a _ hj hf
    obtain ⟨f, rfl⟩ : ∃ f, fuel = f + 1 := ⟨fuel - 1, by omega⟩
    refine ⟨0, le_refl _, ?_, by simpa using hj, by intro i hi; omega⟩
    have : ¬ need > a := by simpa using hj
    simp [nu_mesh_add_bytes_grow, this]
  | succ j ih =>
    intro fuel a ha hj hf
    obtain ⟨f, rfl⟩ : ∃ f, fuel = f + 1 := ⟨fuel - 1, by omega⟩
    by_cases hc : need > a
    · have hlt : a * 2 < SIZE_MOD := by unfold SIZE_MOD; omega
      have hj2 : need ≤ (a * 2) * 2 ^ j := by
        rw [pow_succ] at hj; nlinarith [hj]
      obtain ⟨k, hk, hg, hle, hmin⟩ := ih f (a * 2) (by omega) hj2 (by omega)
      refine ⟨k + 1, by omega, ?_, ?_, ?_⟩
      · simp only [nu_mesh_add_bytes_grow, hc, if_true, Nat.mod_eq_of_lt hlt, hg]
        congr 1; rw [pow_succ]; ring
      · rw [pow_succ]; calc need ≤ a * 2 * 2 ^ k := hle
          _ = a * (2 ^ k * 2) := by ring
      · intro i hi
        cases i with
        | zero => simpa using hc
        | succ i =>
          have := hmin i (by omega)
          rw [pow_succ]; calc a * (2 ^ i * 2) = a * 2 * 2 ^ i := by ring
            _ < need := this
    · refine ⟨0, Nat.zero_le _, ?_, by simpa using hc, by intro i hi; omega⟩
      simp [nu_mesh_add_bytes_grow, hc]

theorem splice_length (d s : List Byte) (a n : Nat) (h : a + n ≤ d.length)
    (hs : n ≤ s.length) : (d.take a ++ s.take n ++ d.drop (a + n)).length = d.length := by
  simp only [List.length_append, List.length_take, List.length_drop]
  omega

theorem splice_take (d s : List Byte) (a n : Nat) (h : a + n ≤ d.length) :
    (d.take a ++ s.take n ++ d.drop (a + n)).take a = d.take a := by
  rw [List.append_assoc]
  exact List.take_left' (by simp; omega)

theorem splice_mid (d s : List Byte) (a n : Nat) (h : a + n ≤ d.length)
    (hs : n ≤ s.length) :
    ((d.take a ++ s.take n ++ d.drop (a + n)).drop a).take n = s.take n := by
  rw [List.append_assoc, List.drop_left' (by simp; omega)]
  exact List.take_left' (by simp; omega)

theorem nu_mesh_add_bytes_copy_spec (m : nu_Mesh) (buf : List Byte) (n : Nat)
    (s : List Byte) (h1 : m.builder_added + n ≤ buf.length) (h2 : n ≤ s.length)
    (h3 : m.builder_added + n < SIZE_MOD) :
    nu_mesh_add_bytes_copy m buf n s =
      .ok (some { m with
        builder_data :=
          some (buf.take m.builder_added ++ s.take n ++ buf.drop (m.builder_added + n)),
        builder_added := m.builder_added + n }) := by
  simp [nu_mesh_add_bytes_copy, memcpy, h1, h2, Nat.mod_eq_of_lt h3]

/-- The resize block followed by the copy, on a builder whose block has `builder_alloced`
bytes: the capacity becomes `builder_alloced * 2 ^ k` for the least `k` that makes room
(`k = 0` when the bytes already fit), the old bytes are carried over, the new ones
follow. When the new block cannot be allocated only `builder_alloced` changes. -/
theorem nu_mesh_add_bytes_resize_spec (ok : Bool) (m : nu_Mesh) (buf : List Byte) (n : Nat)
    (s : List Byte) (hlen : buf.length = m.builder_alloced) (hpos : 0 < m.builder_alloced)
    (hadd : m.builder_added ≤ m.builder_alloced) (hs : n ≤ s.length)
    (hb : m.builder_added + n ≤ 2 ^ 63) :
    ∃ k, m.builder_added + n ≤ m.builder_alloced * 2 ^ k ∧
      (∀ i, i < k → m.builder_alloced * 2 ^ i < m.builder_added + n) ∧
      nu_mesh_add_bytes_resize ok m buf n s =
        if k = 0 ∨ ok = true then
          .ok (some { m with
            builder_alloced := m.builder_alloced * 2 ^ k,
            builder_data :=
              some (((if k = 0 then buf else buf.take m.builder_added ++
                  List.replicate (m.builder_alloced * 2 ^ k - m.builder_added) 0).take
                    m.builder_added) ++ s.take n ++
                (if k = 0 then buf else buf.take m.builder_added ++
                  List.replicate (m.builder_alloced * 2 ^ k - m.builder_added) 0).drop
                    (m.builder_added + n)),
            builder_added := m.builder_added + n })
        else .ok (some { m with builder_alloced := m.builder_alloced * 2 ^ k }) := by
  have hmod : (m.builder_added + n) % SIZE_MOD = m.builder_added + n :=
    Nat.mod_eq_of_lt (by unfold SIZE_MOD; omega)
  have hlt : m.builder_added + n < SIZE_MOD := by unfold SIZE_MOD; omega
  by_cases hfit : m.builder_added + n ≤ m.builder_alloced
  · refine ⟨0, by simpa using hfit, by intro i hi; omega, ?_⟩
    have hc : ¬ (m.builder_added + n > m.builder_alloced) := by omega
    simp only [nu_mesh_add_bytes_resize, hmod, hc, if_false, true_or, if_true, pow_zero,
      Nat.mul_one]
    rw [nu_mesh_add_bytes_copy_spec m buf n s (by omega) hs hlt]
  · have h63 : m.builder_added + n ≤ m.builder_alloced * 2 ^ 63 := by
      calc m.builder_added + n ≤ 1 * 2 ^ 63 := by omega
        _ ≤ m.builder_alloced * 2 ^ 63 := Nat.mul_le_mul_right _ hpos
    obtain ⟨k, _, hg, hle, hmin⟩ :=
      nu_mesh_add_bytes_grow_spec (m.builder_added + n) hb 63 GROW_FUEL m.builder_alloced
        hpos h63 (by unfold GROW_FUEL; omega)
    have hk : k ≠ 0 := by
      rintro rfl
      simp at hle; omega
    refine ⟨k, hle, hmin, ?_⟩
    have hc : m.builder_added + n > m.builder_alloced := by omega
    simp only [nu_mesh_add_bytes_resize, hmod, hc, if_true, hg, hk, false_or]
    cases ok with
    | false => simp [calloc]
    | true =>
      have hA : m.builder_added ≤ m.builder_alloced * 2 ^ k := by omega
      have hnew : memcpy (List.replicate (m.builder_alloced * 2 ^ k) (0 : Byte)) 0 buf
          m.builder_added = .ok (buf.take m.builder_added ++
            List.replicate (m.builder_alloced * 2 ^ k - m.builder_added) 0) := by
        simp [memcpy, hA, hlen, hadd]
      simp only [calloc, if_true, hnew]
      rw [nu_mesh_add_bytes_copy_spec _ _ n s (by simp; omega) hs (by simpa using hlt)]
      simp

/-- The resize block and the copy when every allocation succeeds, by their effect. -/
theorem nu_mesh_add_bytes_resize_ok (m : nu_Mesh) (buf : List Byte) (n : Nat)
    (s : List Byte) (hlen : buf.length = m.builder_alloced) (hpos : 0 < m.builder_alloced)
    (hadd : m.builder_added ≤ m.builder_alloced) (hs : n ≤ s.length)
    (hb : m.builder_added + n ≤ 2 ^ 63) :
    ∃ m1 buf1, nu_mesh_add_bytes_resize true m buf n s = .ok (some m1) ∧
      m1.builder_data = some buf1 ∧ buf1.length = m1.builder_alloced ∧
      m1.builder_added = m.builder_added + n ∧ m1.builder_added ≤ m1.builder_alloced ∧
      buf1.take m.builder_added = buf.take m.builder_added ∧
      (buf1.drop m.builder_added).take n = s.take n := by
  obtain ⟨k, hle, _, heq⟩ := nu_mesh_add_bytes_resize_spec true m buf n s hlen hpos hadd hs hb
  simp only [or_true, if_true] at heq
  by_cases hk : k = 0
  · subst hk
    simp only [pow_zero, Nat.mul_one, if_true] at heq hle
    refine ⟨_, _, heq, rfl, ?_, rfl, hle, ?_, ?_⟩
    · simpa [hlen] using splice_length buf s m.builder_added n (by omega) hs
    · exact splice_take buf s m.builder_added n (by omega)
    · exact splice_mid buf s m.builder_added n (by omega) hs
  · simp only [hk, if_false] at heq
    generalize hB : buf.take m.builder_added ++
        List.replicate (m.builder_alloced * 2 ^ k - m.builder_added) (0 : Byte) = base at heq
    have hbl : base.length = m.builder_alloced * 2 ^ k := by
      rw [← hB]; simp; omega
    have hbt : base.take m.builder_added = buf.take m.builder_added := by
      rw [← hB]; exact List.take_left' (by simp; omega)
    refine ⟨_, _, heq, rfl, ?_, rfl, hle, ?_, ?_⟩
    · simpa [hbl] using splice_length base s m.builder_added n (by omega) hs
    · rw [splice_take base s m.builder_added n (by omega), hbt]
    · exact splice_mid base s m.builder_added n (by omega) hs

/-- One successful `nu_mesh_add_bytes` on a well-formed builder. -/
theorem nu_mesh_add_bytes_step (m : nu_Mesh) (hwf : m.WF) (n : Nat) (s : List Byte)
    (hn : 0 < n) (hs : n ≤ s.length) (hb : m.builder_added + n ≤ 2 ^ 63) :
    ∃ m1, nu_mesh_add_bytes true true (some m) n (some s) = .ok (some m1) ∧ m1.WF ∧
      m1.builder_added = m.builder_added + n ∧
      m1.data.take m.builder_added = m.data.take m.builder_added ∧
      (m1.data.drop m.builder_added).take n = s.take n := by
  have hn0 : n ≠ 0 := by omega
  cases hd : m.builder_data with
  | none =>
    simp only [nu_Mesh.WF, hd] at hwf
    obtain ⟨ha, hal⟩ := hwf
    obtain ⟨m1, buf1, heq, hd1, hl1, ha1, hle1, ht, hm⟩ :=
      nu_mesh_add_bytes_resize_ok
        { m with builder_data := some (List.replicate n 0), builder_alloced := n }
        (List.replicate n 0) n s (by simp) (by simpa using hn) (by simp [ha]) hs
        (by simpa using hb)
    refine ⟨m1, ?_, ?_, by simpa using ha1, ?_, ?_⟩
    · simpa [nu_mesh_add_bytes, hn0, hd, calloc] using heq
    · simp only [nu_Mesh.WF, hd1]
      exact ⟨hl1, by simp at ha1; omega, hle1⟩
    · simp [ha]
    · simpa [nu_Mesh.data, hd1, ha] using hm
  | some buf =>
    simp only [nu_Mesh.WF, hd] at hwf
    obtain ⟨hlen, hpos, hadd⟩ := hwf
    obtain ⟨m1, buf1, heq, hd1, hl1, ha1, hle1, ht, hm⟩ :=
      nu_mesh_add_bytes_resize_ok m buf n s hlen hpos hadd hs hb
    refine ⟨m1, ?_, ?_, ha1, ?_, ?_⟩
    · simpa [nu_mesh_add_bytes, hn0, hd] using heq
    · simp only [nu_Mesh.WF, hd1]
      exact ⟨hl1, by omega, hle1⟩
    · simpa [nu_Mesh.data, hd1, hd] using ht
    · simpa [nu_Mesh.data, hd1] using hm

theorem nu_mesh_add_bytes_grow_mono (need : Nat) :
    ∀ (f g a x : Nat), nu_mesh_add_bytes_grow f need a = some x →
      nu_mesh_add_bytes_grow (f + g) need a = some x := by
  intro f
  induction f with
  | zero => intro g a x h; simp [nu_mesh_add_bytes_grow] at h
  | succ f ih =>
    intro g a x h
    rw [show f + 1 + g = (f + g) + 1 by omega]
    by_cases hc : need > a
    · simp only [nu_mesh_add_bytes_grow, hc, if_true] at h ⊢
      exact ih g _ x h
    · simp only [nu_mesh_add_bytes_grow, hc, if_false] at h ⊢
      exact h

theorem nu_mesh_add_bytes_grow_zero (need : Nat) (hneed : 0 < need) :
    ∀ f : Nat, nu_mesh_add_bytes_grow f need 0 = none := by
  intro f
  induction f with
  | zero => rfl
  | succ f ih => simpa [nu_mesh_add_bytes_grow, hneed] using ih

theorem nu_mesh_add_bytes_grow_iter (need : Nat) :
    ∀ (f g a : Nat), a < SIZE_MOD → nu_mesh_add_bytes_grow f need a = none →
      nu_mesh_add_bytes_grow (f + g) need a =
        nu_mesh_add_bytes_grow g need (a * 2 ^ f % SIZE_MOD) := by
  intro f
  induction f with
  | zero => intro g a ha _; simp [Nat.mod_eq_of_lt ha]
  | succ f ih =>
    intro g a ha h
    rw [show f + 1 + g = (f + g) + 1 by omega]
    by_cases hc : need > a
    · simp only [nu_mesh_add_bytes_grow, hc, if_true] at h ⊢
      rw [ih g _ (Nat.mod_lt _ (by unfold SIZE_MOD; omega)) h]
      congr 1
      rw [Nat.mod_mul_mod, pow_succ]
      congr 1; ring
    · simp [nu_mesh_add_bytes_grow, hc] at h

/-- The fuel `GROW_FUEL` is exact: more fuel never changes the outcome of the doubling
loop, so `none` at `GROW_FUEL` is a loop that never exits. -/
theorem nu_mesh_add_bytes_grow_fuel (need a fuel : Nat) (ha : a < SIZE_MOD)
    (hf : GROW_FUEL ≤ fuel) :
    nu_mesh_add_bytes_grow fuel need a = nu_mesh_add_bytes_grow GROW_FUEL need a := by
  obtain ⟨g, rfl⟩ : ∃ g, fuel = GROW_FUEL + g := ⟨fuel - GROW_FUEL, by omega⟩
  cases h : nu_mesh_add_bytes_grow GROW_FUEL need a with
  | some x => exact nu_mesh_add_bytes_grow_mono need _ g a x h
  | none =>
    rw [nu_mesh_add_bytes_grow_iter need _ g a ha h]
    have h0 : a * 2 ^ GROW_FUEL % SIZE_MOD = 0 := by
      unfold GROW_FUEL SIZE_MOD
      rw [show (2 : Nat) ^ 65 = 2 * 2 ^ 64 by norm_num, ← Nat.mul_assoc]
      exact Nat.mul_mod_left _ _
    have hneed : 0 < need := by
      unfold GROW_FUEL at h
      by_cases hc : need > a
      · omega
      · simp [nu_mesh_add_bytes_grow, hc] at h
    rw [h0, nu_mesh_add_bytes_grow_zero need hneed]

/-- A sequence of successful `nu_mesh_add_bytes` calls on a well-formed builder. -/
theorem add_all_spec (blocks : List (List Byte)) :
    ∀ m : nu_Mesh, m.WF → m.builder_added + blocks.flatten.length ≤ 2 ^ 63 →
      ∃ m1, add_all (some m) blocks = .ok (some m1) ∧ m1.WF ∧
        m1.builder_added = m.builder_added + blocks.flatten.length ∧
        m1.data.take m1.builder_added = m.data.take m.builder_added ++ blocks.flatten := by
  induction blocks with
  | nil => intro m hwf _; exact ⟨m, rfl, hwf, by simp, by simp⟩
  | cons b rest ih =>
    intro m hwf hb
    simp only [List.flatten_cons, List.length_append] at hb
    by_cases hn : b.length = 0
    · have hb0 : b = [] := List.length_eq_zero.mp hn
      subst hb0
      obtain ⟨m1, h1, hwf1, ha1, hd1⟩ := ih m hwf (by simpa using hb)
      refine ⟨m1, ?_, hwf1, by simpa using ha1, by simpa using hd1⟩
      simpa [add_all, nu_mesh_add_bytes] using h1
    · obtain ⟨m1, h1, hwf1, ha1, ht1, hm1⟩ :=
        nu_mesh_add_bytes_step m hwf b.length b (by omega) (le_refl _) (by omega)
      obtain ⟨m2, h2, hwf2, ha2, hd2⟩ := ih m1 hwf1 (by omega)
      refine ⟨m2, ?_, hwf2, ?_, ?_⟩
      · simp only [add_all, h1]; exact h2
      · simp only [List.flatten_cons, List.length_append]; omega
      · rw [hd2, ha1, List.take_add, ht1, hm1, List.take_length, List.flatten_cons,
          List.append_assoc]

/-- The capacity after the resize block, whether or not the new block is obtained. -/
theorem nu_mesh_add_bytes_resize_alloced (ok : Bool) (m : nu_Mesh) (buf : List Byte)
    (n : Nat) (s : List Byte) (hlen : buf.length = m.builder_alloced)
    (hpos : 0 < m.builder_alloced) (hadd : m.builder_added ≤ m.builder_alloced)
    (hs : n ≤ s.length) (hb : m.builder_added + n ≤ 2 ^ 63) :
    ∃ k m1, m.builder_added + n ≤ m.builder_alloced * 2 ^ k ∧
      (∀ i, i < k → m.builder_alloced * 2 ^ i < m.builder_added + n) ∧
      nu_mesh_add_bytes_resize ok m buf n s = .ok (some m1) ∧
      m1.builder_alloced = m.builder_alloced * 2 ^ k ∧
      (k = 0 ∨ ok = true → ∃ buf1, m1.builder_data = some buf1 ∧
        buf1.length = m1.builder_alloced) := by
  obtain ⟨k, hle, hmin, heq⟩ :=
    nu_mesh_add_bytes_resize_spec ok m buf n s hlen hpos hadd hs hb
  by_cases hc : k = 0 ∨ ok = true
  · rw [if_pos hc] at heq
    refine ⟨k, _, hle, hmin, heq, rfl, fun _ => ⟨_, rfl, ?_⟩⟩
    by_cases hk : k = 0
    · subst hk
      simp only [pow_zero, Nat.mul_one] at hle
      simpa [hlen] using splice_length buf s m.builder_added n (by omega) hs
    · simp only [hk, if_false]
      generalize hB : buf.take m.builder_added ++
        List.replicate (m.builder_alloced * 2 ^ k - m.builder_added) (0 : Byte) = base
      have hbl : base.length = m.builder_alloced * 2 ^ k := by
        rw [← hB]; simp; omega
      simpa [hbl] using splice_length base s m.builder_added n (by omega) hs
  · rw [if_neg hc] at heq
    exact ⟨k, _, hle, hmin, heq, rfl, fun h => absurd h hc⟩

/-- What `nu_mesh_add_bytes` does while no allocation has failed: it appends. On a
well-formed builder, a call
with `num_bytes > 0` bytes available at `src` and every allocation succeeding returns,
increases `builder_added` by exactly `num_bytes`, leaves the first (old `builder_added`)
bytes of the block unchanged and makes the next `num_bytes` bytes those of `src`; and
after a sequence of such calls the first `builder_added` bytes are the old ones followed
by the concatenation of the added blocks in call order. Sizes stay within `2 ^ 63`, where
the 64-bit doubling of the capacity does not wrap. -/
theorem nu_mesh_add_bytes_appends_wf (m : nu_Mesh) (hwf : m.WF) :
    (∀ (num_bytes : Nat) (src : List Byte), 0 < num_bytes → num_bytes ≤ src.length →
      m.builder_added + num_bytes ≤ 2 ^ 63 →
      ∃ m1, nu_mesh_add_bytes true true (some m) num_bytes (some src) = .ok (some m1) ∧
        m1.builder_added = m.builder_added + num_bytes ∧
        m1.data.take m.builder_added = m.data.take m.builder_added ∧
        (m1.data.drop m.builder_added).take num_bytes = src.take num_bytes) ∧
    (∀ blocks : List (List Byte), m.builder_added + blocks.flatten.length ≤ 2 ^ 63 →
      ∃ m1, add_all (some m) blocks = .ok (some m1) ∧
        m1.builder_added = m.builder_added + blocks.flatten.length ∧
        m1.data.take m1.builder_added = m.data.take m.builder_added ++ blocks.flatten) := by
  constructor
  · intro n s hn hs hb
    obtain ⟨m1, h1, _, ha, ht, hm⟩ := nu_mesh_add_bytes_step m hwf n s hn hs hb
    exact ⟨m1, h1, ha, ht, hm⟩
  · intro blocks hb
    obtain ⟨m1, h1, _, ha, hd⟩ := add_all_spec blocks m hwf hb
    exact ⟨m1, h1, ha, hd⟩

/-- C2: the builder grows by doubling. On a builder in a state the library produces and a
call that adds `num_bytes > 0` bytes: without a block the first allocation has capacity
exactly `num_bytes`; with a block that is too small the new `builder_alloced` is the old
one times `2 ^ k` for the smallest `k ≥ 1` that makes room; with a block that is large
enough `builder_alloced` is unchanged. When the allocations succeed the block has
`builder_alloced` bytes. -/
theorem C2_builder_grows_by_doubling (m : nu_Mesh) (hwf : m.WF) (num_bytes : Nat)
    (src : List Byte) (hn : 0 < num_bytes) (hs : num_bytes ≤ src.length)
    (hb : m.builder_added + num_bytes ≤ 2 ^ 63) (ok₂ : Bool) :
    ∃ m1, nu_mesh_add_bytes true ok₂ (some m) num_bytes (some src) = .ok (some m1) ∧
      (m.builder_data = none → m1.builder_alloced = num_bytes ∧
        ∃ buf, m1.builder_data = some buf ∧ buf.length = num_bytes) ∧
      (m.builder_data ≠ none → m.builder_added + num_bytes > m.builder_alloced →
        ∃ k, 1 ≤ k ∧ m1.builder_alloced = m.builder_alloced * 2 ^ k ∧
          m.builder_added + num_bytes ≤ m.builder_alloced * 2 ^ k ∧
          ∀ j, 1 ≤ j → j < k → ¬ m.builder_added + num_bytes ≤ m.builder_alloced * 2 ^ j) ∧
      (m.builder_data ≠ none → m.builder_added + num_bytes ≤ m.builder_alloced →
        m1.builder_alloced = m.builder_alloced) ∧
      (ok₂ = true → ∃ buf, m1.builder_data = some buf ∧
        buf.length = m1.builder_alloced) := by
  have hn0 : num_bytes ≠ 0 := by omega
  cases hd : m.builder_data with
  | none =>
    simp only [nu_Mesh.WF, hd] at hwf
    obtain ⟨ha, hal⟩ := hwf
    obtain ⟨k, m1, hle, hmin, heq, hal1, hbuf⟩ := nu_mesh_add_bytes_resize_alloced ok₂
        { m with builder_data := some (List.replicate num_bytes 0),
                 builder_alloced := num_bytes }
        (List.replicate num_bytes 0) num_bytes src (by simp) (by simpa using hn)
        (by simp [ha]) hs (by simpa using hb)
    have hk : k = 0 := by
      by_contra hk
      have := hmin 0 (by omega)
      simp [ha] at this
    subst hk
    simp only [pow_zero, Nat.mul_one] at hal1
    obtain ⟨buf1, hb1, hl1⟩ := hbuf (Or.inl rfl)
    refine ⟨m1, ?_, ?_, ?_, ?_, ?_⟩
    · simpa [nu_mesh_add_bytes, hn0, hd, calloc] using heq
    · intro _
      exact ⟨hal1, buf1, hb1, by rw [hl1, hal1]⟩
    · intro h; exact absurd rfl h
    · intro h; exact absurd rfl h
    · intro _
      exact ⟨buf1, hb1, hl1⟩
  | some buf =>
    simp only [nu_Mesh.WF, hd] at hwf
    obtain ⟨hlen, hpos, hadd⟩ := hwf
    obtain ⟨k, m1, hle, hmin, heq, hal, hbuf⟩ :=
      nu_mesh_add_bytes_resize_alloced ok₂ m buf num_bytes src hlen hpos hadd hs hb
    refine ⟨m1, ?_, ?_, ?_, ?_, fun h => hbuf (Or.inr h)⟩
    · simpa [nu_mesh_add_bytes, hn0, hd] using heq
    · intro h; simp at h
    · intro _ hex
      refine ⟨k, ?_, hal, hle, fun j _ hj => by have := hmin j hj; omega⟩
      by_contra hk
      have hk0 : k = 0 := by omega
      subst hk0
      simp at hle; omega
    · intro _ hfit
      have hk : k = 0 := by
        by_contra hk
        have := hmin 0 (by omega)
        simp at this; omega
      subst hk
      simpa using hal

theorem example_mesh_WF : example_mesh.WF := by
  simp [nu_Mesh.WF, example_mesh]

/-- A resize whose allocation fails leaves `builder_alloced` doubled and the block as it
was, a state that is not well-formed; a later call that fits the doubled counter writes
past the end of the block. -/
theorem nu_mesh_add_bytes_after_failed_resize :
    nu_mesh_add_bytes true false (some example_mesh) 2 (some [7, 8]) =
      .ok (some { example_mesh with builder_alloced := 8 }) ∧
    nu_mesh_add_bytes true true (some { example_mesh with builder_alloced := 8 }) 2
      (some [7, 8]) = .error .outOfBounds := by
  constructor <;> decide

/-- Adding the two bytes `7, 8` to `example_mesh` doubles its block of four bytes to eight
and puts the bytes after the three that were there. -/
theorem nu_mesh_add_bytes_appends_wf_example :
    example_mesh.WF ∧
    nu_mesh_add_bytes true true (some example_mesh) 2 (some [7, 8]) =
      .ok (some { example_mesh with builder_data := some [1, 2, 3, 7, 8, 0, 0, 0],
                                    builder_alloced := 8, builder_added := 5 }) ∧
    (∃ m1, nu_mesh_add_bytes true true (some example_mesh) 2 (some [7, 8]) = .ok (some m1) ∧
      m1.builder_added = example_mesh.builder_added + 2 ∧
      m1.data.take example_mesh.builder_added =
        example_mesh.data.take example_mesh.builder_added ∧
      (m1.data.drop example_mesh.builder_added).take 2 = List.take 2 [7, 8]) :=
  ⟨example_mesh_WF, by decide,
    (nu_mesh_add_bytes_appends_wf example_mesh example_mesh_WF).1 2 [7, 8] (by decide)
      (by decide) (by decide)⟩

/-- C1, where the code breaks it. On a mesh from `nu_create_mesh`, four bytes are added;
a second call that has to resize fails to allocate, and the code has by then doubled
`builder_alloced` to 8 while the block still has four bytes. A third call of two bytes
needs no allocation by that counter, and its `memcpy` writes bytes 4 and 5 of the block of
four: it does not append. Had the resize succeeded, the same third call appends. -/
theorem C1_nu_mesh_add_bytes_overruns_after_failed_resize :
    (nu_create_mesh true 1 2 1 [1] [2] [GL_FLOAT]).map Prod.fst =
      .ok (some example_created) ∧
    run_ops (some example_created)
        [.add_bytes true false 2 (some [5, 6]), .add_bytes true true 4 (some [1, 2, 3, 4])] =
      .ok (some { example_created with builder_data := some [1, 2, 3, 4],
                                       builder_alloced := 8, builder_added := 4 }) ∧
    nu_mesh_add_bytes true true
        (some { example_created with builder_data := some [1, 2, 3, 4],
                                     builder_alloced := 8, builder_added := 4 })
        2 (some [5, 6]) = .error .outOfBounds ∧
    run_ops (some example_created)
        [.add_bytes true true 2 (some [5, 6]), .add_bytes true true 2 (some [5, 6]),
         .add_bytes true true 4 (some [1, 2, 3, 4])] =
      .ok (some { example_created with builder_data := some [1, 2, 3, 4, 5, 6, 5, 6],
                                       builder_alloced := 8, builder_added := 8 }) := by
  refine ⟨by decide, by decide, by decide, by decide⟩

/-- On `example_mesh` (three bytes in a block of four) adding two bytes doubles the
capacity once, to eight. -/
theorem C2_builder_grows_by_doubling_witness :
    example_mesh.WF ∧ 0 < 2 ∧ 2 ≤ [(7 : Byte), 8].length ∧
    example_mesh.builder_added + 2 ≤ 2 ^ 63 ∧
    (nu_mesh_add_bytes true true (some example_mesh) 2 (some [7, 8])).map
      (Option.map nu_Mesh.builder_alloced) = .ok (some (4 * 2 ^ 1)) ∧
    ∃ m1, nu_mesh_add_bytes true true (some example_mesh) 2 (some [7, 8]) = .ok (some m1) ∧
      (example_mesh.builder_data = none → m1.builder_alloced = 2 ∧
        ∃ buf, m1.builder_data = some buf ∧ buf.length = 2) ∧
      (example_mesh.builder_data ≠ none →
        example_mesh.builder_added + 2 > example_mesh.builder_alloced →
        ∃ k, 1 ≤ k ∧ m1.builder_alloced = example_mesh.builder_alloced * 2 ^ k ∧
          example_mesh.builder_added + 2 ≤ example_mesh.builder_alloced * 2 ^ k ∧
          ∀ j, 1 ≤ j → j < k →
            ¬ example_mesh.builder_added + 2 ≤ example_mesh.builder_alloced * 2 ^ j) ∧
      (example_mesh.builder_data ≠ none →
        example_mesh.builder_added + 2 ≤ example_mesh.builder_alloced →
        m1.builder_alloced = example_mesh.builder_alloced) ∧
      (true = true → ∃ buf, m1.builder_data = some buf ∧
        buf.length = m1.builder_alloced) :=
  ⟨example_mesh_WF, by decide, by decide, by decide, by decide,
    C2_builder_grows_by_doubling example_mesh example_mesh_WF 2 [7, 8] (by decide)
      (by decide) (by decide) true⟩

theorem strlen_le (s : List Char) : strlen s ≤ s.length := by
  induction s with
  | nil => simp [strlen]
  | cons c cs ih =>
    by_cases h : c = NUL
    · simp [strlen, h]
    · simp [strlen, h, ih]

theorem cstr_length (s : List Char) : (cstr s).length = strlen s := by
  simp [cstr, strlen_le]

theorem strncmp_eq_zero_iff :
    ∀ (n : Nat) (a b : List Char), a.length = n → NUL ∉ a → n ≤ b.length →
      (strncmp a b n = 0 ↔ b.take n = a) := by
  intro n
  induction n with
  | zero =>
    intro a b ha _ _
    have : a = [] := List.length_eq_zero.mp ha
    simp [strncmp, this]
  | succ n ih =>
    intro a b ha hnul hb
    match a, b with
    | [], _ => simp at ha
    | _ :: _, [] => simp at hb
    | x :: xs, y :: ys =>
      have hx : x ≠ NUL := fun h => hnul (by simp [h])
      have hxs : NUL ∉ xs := fun h => hnul (by simp [h])
      simp only [List.length_cons, Nat.add_right_cancel_iff] at ha
      simp only [List.length_cons, Nat.add_le_add_iff_right] at hb
      by_cases hxy : x = y
      · subst hxy
        simp [strncmp, hx, ih xs ys ha hxs hb]
      · have hne : (x.toNat : Int) - (y.toNat : Int) ≠ 0 := by
          intro h
          apply hxy
          apply Char.ext
          apply UInt32.ext
          have : x.toNat = y.toNat := by omega
          simpa [Char.toNat, UInt32.toNat] using this
        have hyx : ¬ y = x := fun h => hxy h.symm
        simp [strncmp, hxy, hne, hyx]

theorem ext_ptr_take (name : List Char) (h5 : 5 ≤ strlen name) :
    (name.drop (strlen name - 5)).take 5 = (cstr name).drop (strlen name - 5) := by
  have := strlen_le name
  simp only [cstr, List.drop_take]
  congr 1
  omega

theorem nu_get_shader_type_loop_eq (p : List Char) (hp : 5 ≤ p.length) :
    nu_get_shader_type_loop p shader_exts shader_types =
      if p.take 5 = ".vert".toList then GL_VERTEX_SHADER
      else if p.take 5 = ".frag".toList then GL_FRAGMENT_SHADER
      else if p.take 5 = ".geom".toList then GL_GEOMETRY_SHADER
      else if p.take 5 = ".tesc".toList then GL_TESS_CONTROL_SHADER
      else if p.take 5 = ".tese".toList then GL_TESS_EVALUATION_SHADER
      else if p.take 5 = ".comp".toList then GL_COMPUTE_SHADER
      else 0 := by
  simp only [shader_exts, shader_types, nu_get_shader_type_loop]
  simp only [strncmp_eq_zero_iff 5 ".vert".toList p (by decide) (by decide) hp,
    strncmp_eq_zero_iff 5 ".frag".toList p (by decide) (by decide) hp,
    strncmp_eq_zero_iff 5 ".geom".toList p (by decide) (by decide) hp,
    strncmp_eq_zero_iff 5 ".tesc".toList p (by decide) (by decide) hp,
    strncmp_eq_zero_iff 5 ".tese".toList p (by decide) (by decide) hp,
    strncmp_eq_zero_iff 5 ".comp".toList p (by decide) (by decide) hp]

/-- The function `nu_get_shader_type` on a name of at least five characters, by the last
five characters of the name. -/
theorem nu_get_shader_type_eq (name : List Char) (h5 : 5 ≤ strlen name) :
    nu_get_shader_type (some name) =
      if (cstr name).drop (strlen name - 5) = ".vert".toList then GL_VERTEX_SHADER
      else if (cstr name).drop (strlen name - 5) = ".frag".toList then GL_FRAGMENT_SHADER
      else if (cstr name).drop (strlen name - 5) = ".geom".toList then GL_GEOMETRY_SHADER
      else if (cstr name).drop (strlen name - 5) = ".tesc".toList then
        GL_TESS_CONTROL_SHADER
      else if (cstr name).drop (strlen name - 5) = ".tese".toList then
        GL_TESS_EVALUATION_SHADER
      else if (cstr name).drop (strlen name - 5) = ".comp".toList then GL_COMPUTE_SHADER
      else 0 := by
  have hl := strlen_le name
  have hlt : ¬ strlen name < 5 := by omega
  simp only [nu_get_shader_type, hlt, if_false]
  rw [nu_get_shader_type_loop_eq _ (by simp; omega), ext_ptr_take name h5]

theorem last_five_of_suffix (name ext : List Char) (hext : ext.length = 5)
    (h : ext <:+ cstr name) : (cstr name).drop (strlen name - 5) = ext := by
  obtain ⟨t, ht⟩ := h
  have hl : strlen name = t.length + 5 := by
    rw [← cstr_length, ← ht, List.length_append, hext]
  rw [← ht, hl]
  simp

/-- C3: shader-stage detection is decided by the last five characters of the file name.
For every file name of at least five characters, `nu_get_shader_type` returns
`GL_VERTEX_SHADER` when the name ends in `.vert`, `GL_FRAGMENT_SHADER` for `.frag`,
`GL_GEOMETRY_SHADER` for `.geom`, `GL_TESS_CONTROL_SHADER` for `.tesc`,
`GL_TESS_EVALUATION_SHADER` for `.tese` and `GL_COMPUTE_SHADER` for `.comp`, whatever
precedes the extension. -/
theorem C3_shader_type_by_extension (name : List Char) (h5 : 5 ≤ strlen name) :
    (".vert".toList <:+ cstr name → nu_get_shader_type (some name) = GL_VERTEX_SHADER) ∧
    (".frag".toList <:+ cstr name → nu_get_shader_type (some name) = GL_FRAGMENT_SHADER) ∧
    (".geom".toList <:+ cstr name → nu_get_shader_type (some name) = GL_GEOMETRY_SHADER) ∧
    (".tesc".toList <:+ cstr name →
      nu_get_shader_type (some name) = GL_TESS_CONTROL_SHADER) ∧
    (".tese".toList <:+ cstr name →
      nu_get_shader_type (some name) = GL_TESS_EVALUATION_SHADER) ∧
    (".comp".toList <:+ cstr name → nu_get_shader_type (some name) = GL_COMPUTE_SHADER) := by
  rw [nu_get_shader_type_eq name h5]
  refine ⟨?_, ?_, ?_, ?_, ?_, ?_⟩ <;> intro h <;>
    rw [last_five_of_suffix name _ (by decide) h] <;> decide

/-- The name that is exactly `.vert` is a vertex shader, and `dir/fx.comp` is a compute
shader. -/
theorem C3_shader_type_by_extension_witness :
    5 ≤ strlen ".vert".toList ∧
    nu_get_shader_type (some ".vert".toList) = GL_VERTEX_SHADER ∧
    nu_get_shader_type (some "dir/fx.comp".toList) = GL_COMPUTE_SHADER :=
  ⟨by decide,
    (C3_shader_type_by_extension ".vert".toList (by decide)).1 (by decide),
    (C3_shader_type_by_extension "dir/fx.comp".toList (by decide)).2.2.2.2.2
      ⟨"dir/fx".toList, by decide⟩⟩

/-- C4: `nu_get_shader_type` returns the zero sentinel if and only if the file name is
null, is shorter than five characters, or its last five characters are not one of
`.vert`, `.frag`, `.geom`, `.tesc`, `.tese`, `.comp`; and whenever it returns `0`,
`nu_compile_shader` returns `0` and makes no library call: it opens no file and creates
no shader. -/
theorem C4_shader_type_zero_sentinel (filename : Option (List Char)) :
    (nu_get_shader_type filename = 0 ↔
      (filename = none ∨ ∃ name, filename = some name ∧
        (strlen name < 5 ∨ (cstr name).drop (strlen name - 5) ∉ shader_exts))) ∧
    (nu_get_shader_type filename = 0 →
      ∀ env : ShaderEnv, nu_compile_shader env filename = (0, [])) := by
  constructor
  · cases filename with
    | none => simp [nu_get_shader_type]
    | some name =>
      by_cases h5 : strlen name < 5
      · simp [nu_get_shader_type, h5]
      · rw [nu_get_shader_type_eq name (by omega)]
        simp only [reduceCtorEq, false_or, Option.some.injEq, exists_eq_left', h5,
          shader_exts, List.mem_cons, List.mem_singleton, List.not_mem_nil, or_false]
        split_ifs <;> simp_all [GL_VERTEX_SHADER, GL_FRAGMENT_SHADER, GL_GEOMETRY_SHADER,
          GL_TESS_CONTROL_SHADER, GL_TESS_EVALUATION_SHADER, GL_COMPUTE_SHADER]
  · intro h env
    cases filename with
    | none => rfl
    | some name => simp [nu_compile_shader, h]

/-- The name `shader.txt` has no shader extension: its type is `0` and it is not
compiled, while `a.frag` is read and compiled. -/
theorem C4_shader_type_zero_sentinel_witness :
    nu_get_shader_type (some "shader.txt".toList) = 0 ∧
    nu_compile_shader example_shader_env (some "shader.txt".toList) = (0, []) ∧
    nu_compile_shader example_shader_env (some "a.frag".toList) =
      (7, [.fopen "a.frag".toList, .glCreateShader GL_FRAGMENT_SHADER,
           .glShaderSource 7 "x".toList 1, .free (.chars "x".toList),
           .glCompileShader 7, .glGetShaderiv 7 GL_COMPILE_STATUS]) :=
  ⟨by decide,
    (C4_shader_type_zero_sentinel (some "shader.txt".toList)).2 (by decide)
      example_shader_env,
    by decide⟩

theorem nu_update_input_loop_fold (l : List (Fin KEY_COUNT)) :
    ∀ w : nu_Window,
      l.foldl (fun w i => { w with last_keys := Function.update w.last_keys i (w.keys i) }) w =
        { w with last_keys := fun j => if j ∈ l then w.keys j else w.last_keys j } := by
  induction l with
  | nil => intro w; simp
  | cons i l ih =>
    intro w
    rw [List.foldl_cons, ih]
    congr 1
    funext j
    by_cases hj : j ∈ l
    · simp [hj]
    · by_cases hji : j = i
      · subst hji; simp [hj]
      · simp [hj, hji, Function.update]

theorem nu_update_input_loop_eq (w : nu_Window) :
    nu_update_input_loop w = { w with last_keys := w.keys } := by
  have h : (fun j => if j ∈ List.finRange KEY_COUNT then w.keys j else w.last_keys j) =
      w.keys := by
    funext j
    rw [if_pos (List.mem_finRange j)]
  unfold nu_update_input_loop
  rw [nu_update_input_loop_fold, h]

theorem nu_update_input_eq (w : nu_Window) :
    nu_update_input (some w) =
      some { w with last_keys := w.keys, last_mouse_x := w.mouse_x,
                    last_mouse_y := w.mouse_y, last_mouse_left := w.mouse_left,
                    last_mouse_right := w.mouse_right } := by
  simp [nu_update_input, nu_update_input_loop_eq]

/-- C5: `nu_update_input` makes the last input variables equal to the current ones. For
every window, after the call `last_keys[i]` is `keys[i]` for every index of the array,
`last_mouse_x`, `last_mouse_y`, `last_mouse_left`, `last_mouse_right` are `mouse_x`,
`mouse_y`, `mouse_left`, `mouse_right`; `keys`, the four current mouse fields, `width`,
`height`, `glfw_window` (and `focused`) are unchanged; and calling it twice is calling it
once. -/
theorem C5_nu_update_input_copies_current (w : nu_Window) :
    ∃ w1, nu_update_input (some w) = some w1 ∧
      (∀ i : Fin KEY_COUNT, w1.last_keys i = w1.keys i) ∧
      w1.last_mouse_x = w1.mouse_x ∧ w1.last_mouse_y = w1.mouse_y ∧
      w1.last_mouse_left = w1.mouse_left ∧ w1.last_mouse_right = w1.mouse_right ∧
      w1.keys = w.keys ∧ w1.mouse_x = w.mouse_x ∧ w1.mouse_y = w.mouse_y ∧
      w1.mouse_left = w.mouse_left ∧ w1.mouse_right = w.mouse_right ∧
      w1.width = w.width ∧ w1.height = w.height ∧ w1.glfw_window = w.glfw_window ∧
      w1.focused = w.focused ∧
      nu_update_input (nu_update_input (some w)) = nu_update_input (some w) := by
  refine ⟨_, nu_update_input_eq w, fun _ => rfl, rfl, rfl, rfl, rfl, rfl, rfl, rfl, rfl, rfl,
    rfl, rfl, rfl, rfl, ?_⟩
  rw [nu_update_input_eq, nu_update_input_eq]

theorem until_last_update_append (later history : List InputEvent)
    (h : InputEvent.update ∉ later) :
    until_last_update (later ++ .update :: history) = some (.update :: history) := by
  induction later with
  | nil => rfl
  | cons e later ih =>
    have he : InputEvent.update ≠ e := fun h1 => h (by simp [← h1])
    have hl : InputEvent.update ∉ later := fun h1 => h (by simp [h1])
    cases e with
    | update => exact absurd rfl he
    | key _ _ _ _ => simpa [until_last_update] using ih hl
    | cursor _ _ => simpa [until_last_update] using ih hl
    | button _ _ _ => simpa [until_last_update] using ih hl

/-- The arrays `keys` and `last_keys` of a window that starts with every key up, as a
window created by `nu_create_window` does, after any history of callbacks and
`nu_update_input` calls. -/
theorem run_events_keys (w0 : nu_Window) (hk0 : ∀ k, w0.keys k = false)
    (hl0 : ∀ k, w0.last_keys k = false) (history : List InputEvent) :
    ∃ w, run_events (some w0) history = some w ∧
      ∀ k : Fin KEY_COUNT, w.keys k = key_down (k.val : Int) history ∧
        w.last_keys k = key_down_at_last_update (k.val : Int) history := by
  induction history with
  | nil =>
    exact ⟨_, rfl, fun k => by
      simp [hk0, hl0, key_down, key_down_at_last_update, last_key_action,
        until_last_update]⟩
  | cons e earlier ih =>
    obtain ⟨w, hw, hk⟩ := ih
    cases e with
    | update =>
      refine ⟨{ w with last_keys := w.keys, last_mouse_x := w.mouse_x,
                       last_mouse_y := w.mouse_y, last_mouse_left := w.mouse_left,
                       last_mouse_right := w.mouse_right }, ?_, fun k => ?_⟩
      · simp only [run_events, hw, InputEvent.step]; exact nu_update_input_eq w
      · simp [key_down, key_down_at_last_update, last_key_action, until_last_update,
          (hk k).1]
    | cursor x y =>
      refine ⟨{ w with mouse_x := x, mouse_y := y }, ?_, fun k => ?_⟩
      · simp only [run_events, hw, InputEvent.step, cursor_pos_callback]
      · simpa [key_down, key_down_at_last_update, last_key_action, until_last_update]
          using hk k
    | button b a md =>
      have hb : ∃ w1, mouse_button_callback (some w) b a md = some w1 ∧
          w1.keys = w.keys ∧ w1.last_keys = w.last_keys := by
        refine ⟨_, rfl, ?_, ?_⟩ <;> (split_ifs <;> rfl)
      obtain ⟨w1, hw1, hk1, hl1⟩ := hb
      refine ⟨w1, ?_, fun k => ?_⟩
      · simp only [run_events, hw, InputEvent.step, hw1]
      · rw [hk1, hl1]
        simpa [key_down, key_down_at_last_update, last_key_action, until_last_update]
          using hk k
    | key kk sc a md =>
      by_cases hr : 0 ≤ kk ∧ kk ≤ (GLFW_KEY_LAST : Int)
      · refine ⟨{ w with keys := (Function.update w.keys
            (⟨kk.toNat, by unfold KEY_COUNT; omega⟩ : Fin KEY_COUNT)
            (decide (a ≠ GLFW_RELEASE))) }, ?_, fun k => ?_⟩
        · simp only [run_events, hw, InputEvent.step, key_callback, hr, and_self,
            dite_true]
        have := hk k
        simp only [key_down, key_down_at_last_update, last_key_action,
          until_last_update] at this ⊢
        refine ⟨?_, this.2⟩
        by_cases hkk : kk = (k.val : Int)
        · have hfin : (⟨kk.toNat, by unfold KEY_COUNT; omega⟩ : Fin KEY_COUNT) = k := by
            apply Fin.ext; simp [hkk]
          simp only [hkk, if_true]
          rw [← hfin, Function.update_same]
        · have hfin : k ≠ (⟨kk.toNat, by unfold KEY_COUNT; omega⟩ : Fin KEY_COUNT) := by
            intro h
            apply hkk
            have := congrArg Fin.val h
            simp at this
            omega
          simp only [hkk, if_false, Function.update_noteq hfin]
          exact this.1
      · refine ⟨w, ?_, fun k => ?_⟩
        · simp only [run_events, hw, InputEvent.step, key_callback, hr, dite_false]
        have := hk k
        have hkk : kk ≠ (k.val : Int) := by
          intro h
          apply hr
          have := k.isLt
          unfold KEY_COUNT at this
          omega
        simpa [key_down, key_down_at_last_update, last_key_action, until_last_update,
          hkk] using this

/-- C6: `nu_get_key_pressed` tells whether a key was pressed down this frame. On a window
made by `nu_create_window`, after any history of GLFW callbacks and `nu_update_input`
calls, and for every keycode in `0..GLFW_KEY_LAST`, it returns true exactly when the key
is down now (its most recent `key_callback` action was not `GLFW_RELEASE`) and was not
down at the most recent `nu_update_input`. Right after `nu_update_input` it is false on
any window; and a key that was down at an `nu_update_input` is not reported again by any
later events of that frame, `GLFW_REPEAT` included. -/
theorem C6_key_pressed_this_frame (glfwInit_ok : Bool) (glfw_window : Nat)
    (glewInit_ok calloc_ok : Bool) (width height : Nat) (title : Option (List Char))
    (fullscreen : Bool) (w0 : nu_Window)
    (hcreate : nu_create_window glfwInit_ok glfw_window glewInit_ok calloc_ok width height
      title fullscreen = some w0)
    (history : List InputEvent)
    (keycode : Int) (hk : 0 ≤ keycode ∧ keycode ≤ (GLFW_KEY_LAST : Int)) :
    nu_get_key_pressed (run_events (some w0) history) keycode =
      .ok (key_down keycode history && !key_down_at_last_update keycode history) ∧
    (∀ w : nu_Window, nu_get_key_pressed (nu_update_input (some w)) keycode = .ok false) ∧
    (∀ later : List InputEvent, InputEvent.update ∉ later →
      key_down keycode history = true →
      nu_get_key_pressed (run_events (some w0) (later ++ .update :: history)) keycode =
        .ok false) := by
  have hw0 : (∀ k, w0.keys k = false) ∧ (∀ k, w0.last_keys k = false) := by
    unfold nu_create_window at hcreate
    split_ifs at hcreate
    simp only [Option.some.injEq] at hcreate
    rw [← hcreate]
    exact ⟨fun _ => rfl, fun _ => rfl⟩
  have hr : 0 ≤ keycode ∧ keycode < (KEY_COUNT : Int) := by
    unfold KEY_COUNT; omega
  have hval : ((keycode.toNat : Nat) : Int) = keycode := Int.toNat_of_nonneg hk.1
  have main : ∀ h : List InputEvent,
      nu_get_key_pressed (run_events (some w0) h) keycode =
        .ok (key_down keycode h && !key_down_at_last_update keycode h) := by
    intro h
    obtain ⟨w, hw, hkeys⟩ := run_events_keys w0 hw0.1 hw0.2 h
    have := hkeys ⟨keycode.toNat, by omega⟩
    simp only [hval] at this
    simp only [hw, nu_get_key_pressed, hr, and_self, dite_true, this.1, this.2]
  refine ⟨main history, ?_, ?_⟩
  · intro w
    rw [nu_update_input_eq]
    simp [nu_get_key_pressed, hr]
  · intro later hl hdown
    rw [main]
    have h1 : key_down_at_last_update keycode (later ++ .update :: history) = true := by
      simp only [key_down_at_last_update, until_last_update_append later history hl]
      simpa [key_down, last_key_action] using hdown
    simp [h1]

/-- Key 65 pressed and not yet seen by `nu_update_input` is reported; once
`nu_update_input` has run while it is down, a `GLFW_REPEAT` does not report it again. -/
theorem C6_key_pressed_this_frame_witness :
    nu_create_window true 1 true true 640 480 none false = some example_window ∧
    (0 ≤ (65 : Int) ∧ (65 : Int) ≤ (GLFW_KEY_LAST : Int)) ∧
    nu_get_key_pressed (run_events (some example_window) [.key 65 0 GLFW_PRESS 0]) 65 =
      .ok true ∧
    nu_get_key_pressed
      (run_events (some example_window)
        ([.key 65 0 GLFW_REPEAT 0] ++ .update :: [.key 65 0 GLFW_PRESS 0]))
      65 = .ok false :=
  ⟨rfl, by decide,
    (C6_key_pressed_this_frame true 1 true true 640 480 none false example_window rfl
      [.key 65 0 GLFW_PRESS 0] 65 (by decide)).1.trans (by decide),
    (C6_key_pressed_this_frame true 1 true true 640 480 none false example_window rfl
      [.key 65 0 GLFW_PRESS 0] 65 (by decide)).2.2
      [.key 65 0 GLFW_REPEAT 0] (by decide) (by decide)⟩

/-- C7: `nu_free_mesh` frees only the CPU-side builder and keeps the GPU side. For every
mesh, after the call `builder_data` is null and `builder_added` and `builder_alloced` are
`0`, while `VAO`, `VBO`, `stride`, `last_send_size` and `render_mode` are unchanged; the
builder block, when there is one, is handed to `free`, and that is the only library call
(no OpenGL call); and `nu_render_mesh` makes the same calls after it as before: a mesh
that was sent is still drawn, with the same vertex count, `last_send_size / stride` as
`glDrawArrays` receives it. -/
theorem C7_nu_free_mesh_keeps_gpu_side (m : nu_Mesh) :
    (nu_free_mesh (some m)).1 =
      some { builder_data := none, builder_added := 0, builder_alloced := 0,
             VAO := m.VAO, VBO := m.VBO, stride := m.stride,
             last_send_size := m.last_send_size, render_mode := m.render_mode } ∧
    (∀ buf, m.builder_data = some buf →
      (nu_free_mesh (some m)).2 = [.free (.bytes buf)]) ∧
    (m.builder_data = none → (nu_free_mesh (some m)).2 = []) ∧
    nu_render_mesh (nu_free_mesh (some m)).1 = nu_render_mesh (some m) ∧
    (m.last_send_size ≠ 0 → m.stride ≠ 0 →
      nu_render_mesh (nu_free_mesh (some m)).1 =
        .ok [.glBindVertexArray m.VAO, .glBindBuffer GL_ARRAY_BUFFER m.VBO,
             .glDrawArrays m.render_mode 0 (toGLsizei (m.last_send_size / m.stride)),
             .glBindVertexArray 0, .glBindBuffer GL_ARRAY_BUFFER 0]) := by
  refine ⟨rfl, ?_, ?_, rfl, ?_⟩
  · intro buf hd
    simp [nu_free_mesh, hd]
  · intro hd
    simp [nu_free_mesh, hd]
  · intro h1 h2
    simp [nu_free_mesh, nu_render_mesh, h1, h2, nu_bind_mesh, nu_unbind_mesh]

/-- A mesh of stride 4 whose 12 sent bytes are three vertices: freeing the builder hands
its block of four bytes to `free` and leaves the draw call of three vertices. -/
theorem C7_nu_free_mesh_keeps_gpu_side_witness :
    nu_free_mesh (some { example_mesh with stride := 4, last_send_size := 12 }) =
      (some { example_mesh with builder_data := none, builder_added := 0,
                                builder_alloced := 0, stride := 4, last_send_size := 12 },
       [.free (.bytes [1, 2, 3, 0])]) ∧
    (nu_free_mesh (some { example_mesh with stride := 4, last_send_size := 12 })).2 =
      [.free (.bytes [1, 2, 3, 0])] ∧
    nu_render_mesh (nu_free_mesh
        (some { example_mesh with stride := 4, last_send_size := 12 })).1 =
      .ok [.glBindVertexArray 1, .glBindBuffer GL_ARRAY_BUFFER 1,
           .glDrawArrays GL_TRIANGLES 0 3,
           .glBindVertexArray 0, .glBindBuffer GL_ARRAY_BUFFER 0] :=
  ⟨by decide,
    (C7_nu_free_mesh_keeps_gpu_side
      { example_mesh with stride := 4, last_send_size := 12 }).2.1 [1, 2, 3, 0] rfl,
    (C7_nu_free_mesh_keeps_gpu_side
      { example_mesh with stride := 4, last_send_size := 12 }).2.2.2.2
      (by decide) (by decide)⟩

theorem nu_mesh_add_bytes_copy_inv (m : nu_Mesh) (buf : List Byte) (n : Nat) (s : List Byte)
    (r : Option nu_Mesh) (hbuf : buf.length < SIZE_MOD)
    (h : nu_mesh_add_bytes_copy m buf n s = .ok r) :
    ∃ buf1, buf1.length = buf.length ∧
      r = some { m with builder_data := some buf1, builder_added := m.builder_added + n } := by
  unfold nu_mesh_add_bytes_copy memcpy at h
  by_cases hc : m.builder_added + n ≤ buf.length ∧ n ≤ s.length
  · simp only [hc, and_self, if_true, Except.ok.injEq] at h
    refine ⟨_, splice_length buf s m.builder_added n hc.1 hc.2, ?_⟩
    rw [← h, Nat.mod_eq_of_lt (by omega)]
  · simp [hc] at h

theorem nu_mesh_add_bytes_grow_lt (need : Nat) :
    ∀ (f a x : Nat), a < SIZE_MOD → nu_mesh_add_bytes_grow f need a = some x →
      x < SIZE_MOD := by
  intro f
  induction f with
  | zero => intro a x _ h; simp [nu_mesh_add_bytes_grow] at h
  | succ f ih =>
    intro a x ha h
    by_cases hc : need > a
    · simp only [nu_mesh_add_bytes_grow, hc, if_true] at h
      exact ih _ x (Nat.mod_lt _ (by unfold SIZE_MOD; omega)) h
    · simp only [nu_mesh_add_bytes_grow, hc, if_false, Option.some.injEq] at h
      omega

/-- Any returning run of the resize block and the copy: either the new block could not be
allocated and only `builder_alloced` changed, or the bytes were added to a block of
`size_t` length. -/
theorem nu_mesh_add_bytes_resize_inv (ok : Bool) (m : nu_Mesh) (buf : List Byte) (n : Nat)
    (s : List Byte) (r : Option nu_Mesh) (hbuf : buf.length < SIZE_MOD)
    (hal : m.builder_alloced < SIZE_MOD)
    (h : nu_mesh_add_bytes_resize ok m buf n s = .ok r) :
    ∃ m1, r = some m1 ∧ m1.stride = m.stride ∧ m1.last_send_size = m.last_send_size ∧
      m1.VAO = m.VAO ∧ m1.VBO = m.VBO ∧ m1.render_mode = m.render_mode ∧
      m1.builder_alloced < SIZE_MOD ∧
      (((m.builder_added + n) % SIZE_MOD > m.builder_alloced ∧
          m1.builder_data = m.builder_data ∧ m1.builder_added = m.builder_added) ∨
        ∃ buf1, m1.builder_data = some buf1 ∧ buf1.length < SIZE_MOD ∧
          m1.builder_added = m.builder_added + n) := by
  unfold nu_mesh_add_bytes_resize at h
  by_cases hc : (m.builder_added + n) % SIZE_MOD > m.builder_alloced
  · simp only [hc, if_true] at h
    cases hg : nu_mesh_add_bytes_grow GROW_FUEL ((m.builder_added + n) % SIZE_MOD)
        m.builder_alloced with
    | none => simp [hg] at h
    | some a =>
      have ha : a < SIZE_MOD := nu_mesh_add_bytes_grow_lt _ _ _ _ hal hg
      simp only [hg] at h
      cases ok with
      | false =>
        simp only [calloc, Bool.false_eq_true, if_false, Except.ok.injEq] at h
        exact ⟨_, h.symm, rfl, rfl, rfl, rfl, rfl, ha, Or.inl ⟨hc, rfl, rfl⟩⟩
      | true =>
        simp only [calloc, if_true] at h
        cases hm : memcpy (List.replicate a (0 : Byte)) 0 buf m.builder_added with
        | error e => simp [hm] at h
        | ok new1 =>
          simp only [hm] at h
          have hl : new1.length = a := by
            have hsp := splice_length (List.replicate a (0 : Byte)) buf 0 m.builder_added
            simp only [memcpy] at hm
            split at hm
            · rename_i hcc
              simp only [Except.ok.injEq] at hm
              rw [← hm, hsp hcc.1 hcc.2, List.length_replicate]
            · simp at hm
          obtain ⟨buf1, hl1, hr⟩ := nu_mesh_add_bytes_copy_inv _ new1 n s r (by omega) h
          exact ⟨_, hr, rfl, rfl, rfl, rfl, rfl, ha, Or.inr ⟨buf1, rfl, by omega, rfl⟩⟩
  · simp only [hc, if_false] at h
    obtain ⟨buf1, hl1, hr⟩ := nu_mesh_add_bytes_copy_inv m buf n s r hbuf h
    exact ⟨_, hr, rfl, rfl, rfl, rfl, rfl, hal, Or.inr ⟨buf1, rfl, by omega, rfl⟩⟩

/-- Any returning `nu_mesh_add_bytes` keeps the invariant and the rendering fields. -/
theorem nu_mesh_add_bytes_inv (ok₁ ok₂ : Bool) (m : nu_Mesh) (n : Nat)
    (src : Option (List Byte)) (r : Option nu_Mesh) (hinv : m.Inv) (hn : n < SIZE_MOD)
    (h : nu_mesh_add_bytes ok₁ ok₂ (some m) n src = .ok r) :
    ∃ m1, r = some m1 ∧ m1.Inv ∧ m1.stride = m.stride ∧
      m1.last_send_size = m.last_send_size ∧ m1.VAO = m.VAO ∧ m1.VBO = m.VBO ∧
      m1.render_mode = m.render_mode := by
  obtain ⟨hst, hal, hdata⟩ := hinv
  cases src with
  | none =>
    simp only [nu_mesh_add_bytes, Except.ok.injEq] at h
    exact ⟨m, h.symm, ⟨hst, hal, hdata⟩, rfl, rfl, rfl, rfl, rfl⟩
  | some s =>
    by_cases hn0 : n = 0
    · simp only [nu_mesh_add_bytes, hn0, if_true, Except.ok.injEq] at h
      exact ⟨m, h.symm, ⟨hst, hal, hdata⟩, rfl, rfl, rfl, rfl, rfl⟩
    · cases hd : m.builder_data with
      | none =>
        simp only [hd] at hdata
        cases ok₁ with
        | false =>
          simp only [nu_mesh_add_bytes, hn0, if_false, hd, calloc, Bool.false_eq_true,
            Except.ok.injEq] at h
          refine ⟨m, h.symm, ⟨hst, hal, ?_⟩, rfl, rfl, rfl, rfl, rfl⟩
          simp only [hd]; exact hdata
        | true =>
          simp only [nu_mesh_add_bytes, hn0, if_false, hd, calloc, if_true] at h
          obtain ⟨m1, hr, h1, h2, h3, h4, h5, h6, h7⟩ :=
            nu_mesh_add_bytes_resize_inv ok₂ _ _ n s r (by simpa using hn)
              (by simpa using hn) h
          refine ⟨m1, hr, ⟨by rw [h1]; exact hst, h6, ?_⟩, h1, h2, h3, h4, h5⟩
          rcases h7 with ⟨hgt, _, _⟩ | ⟨buf1, hb1, hl1, ha1⟩
          · simp only [hdata, Nat.zero_add, Nat.mod_eq_of_lt hn] at hgt
            omega
          · simp only [hb1]
            exact ⟨hl1, by simp only [ha1]; omega⟩
      | some buf =>
        simp only [hd] at hdata
        simp only [nu_mesh_add_bytes, hn0, if_false, hd] at h
        obtain ⟨m1, hr, h1, h2, h3, h4, h5, h6, h7⟩ :=
          nu_mesh_add_bytes_resize_inv ok₂ m buf n s r hdata.1 hal h
        refine ⟨m1, hr, ⟨by rw [h1]; exact hst, h6, ?_⟩, h1, h2, h3, h4, h5⟩
        rcases h7 with ⟨_, hsame, hadd⟩ | ⟨buf1, hb1, hl1, ha1⟩
        · simp only [hsame, hd, hadd]
          exact hdata
        · simp only [hb1]
          exact ⟨hl1, by omega⟩

/-- A mesh returned by `nu_create_mesh` satisfies the invariant and was never sent. -/
theorem nu_create_mesh_inv (calloc_ok : Bool) (genVAO genVBO n : Nat)
    (sizes counts types : List Nat) (m0 : nu_Mesh) (calls : List Call)
    (h : nu_create_mesh calloc_ok genVAO genVBO n sizes counts types = .ok (some m0, calls)) :
    m0.Inv ∧ m0.last_send_size = 0 := by
  unfold nu_create_mesh at h
  split_ifs at h with h1 h2
  · simp at h
  · simp at h
  · split at h
    · simp at h
    · rename_i vao vbo stride cs _
      split_ifs at h with h3
      · simp at h
      · simp only [Except.ok.injEq, Prod.mk.injEq, Option.some.injEq] at h
        rw [← h.1]
        exact ⟨⟨h3, by simp [SIZE_MOD], rfl⟩, rfl⟩

/-- The state of a created mesh after any history of calls that returns: the invariant
holds, the stride is the one of the creation, and `last_send_size` is the value of
`builder_added` at the most recent successful `nu_send_mesh`, which is not `0`. -/
theorem run_ops_inv (m0 : nu_Mesh) (hinv : m0.Inv) (hls : m0.last_send_size = 0) :
    ∀ (history : List MeshOp) (r : Option nu_Mesh), (∀ op ∈ history, op.sized) →
      run_ops (some m0) history = .ok r →
      ∃ m, r = some m ∧ m.Inv ∧ m.stride = m0.stride ∧
        m.last_send_size = (last_sent (some m0) history).getD 0 ∧
        ∀ a, last_sent (some m0) history = some a → 0 < a := by
  intro history
  induction history with
  | nil =>
    intro r _ h
    simp only [run_ops, Except.ok.injEq] at h
    exact ⟨m0, h.symm, hinv, rfl, by simp [last_sent, hls], by simp [last_sent]⟩
  | cons op earlier ih =>
    intro r hsized h
    simp only [run_ops] at h
    cases hrun : run_ops (some m0) earlier with
    | error e => simp [hrun] at h
    | ok r1 =>
      simp only [hrun] at h
      obtain ⟨m1, hr1, hinv1, hst1, hl1, hpos1⟩ :=
        ih r1 (fun op hop => hsized op (List.mem_cons_of_mem _ hop)) hrun
      subst hr1
      cases op with
      | add_bytes ok₁ ok₂ n src =>
        have hn : n < SIZE_MOD := hsized _ (List.mem_cons_self _ _)
        obtain ⟨m2, hr, hinv2, h1, h2, _, _, _⟩ :=
          nu_mesh_add_bytes_inv ok₁ ok₂ m1 n src r hinv1 hn h
        exact ⟨m2, hr, hinv2, by rw [h1, hst1], by simpa [last_sent, h2] using hl1,
          by simpa [last_sent] using hpos1⟩
      | free =>
        simp only [MeshOp.step, nu_free_mesh, Except.ok.injEq] at h
        refine ⟨_, h.symm, ⟨hinv1.1, by simp [SIZE_MOD], rfl⟩, hst1,
          by simpa [last_sent] using hl1, by simpa [last_sent] using hpos1⟩
      | set_render_mode mode =>
        simp only [MeshOp.step, nu_mesh_set_render_mode, Except.ok.injEq] at h
        exact ⟨_, h.symm, hinv1, hst1, by simpa [last_sent] using hl1,
          by simpa [last_sent] using hpos1⟩
      | render =>
        simp only [MeshOp.step] at h
        cases hre : nu_render_mesh (some m1) with
        | error e => simp [hre, Except.map] at h
        | ok cs =>
          simp only [hre, Except.map, Except.ok.injEq] at h
          exact ⟨m1, h.symm, hinv1, hst1, by simpa [last_sent] using hl1,
            by simpa [last_sent] using hpos1⟩
      | send =>
        simp only [MeshOp.step, nu_send_mesh] at h
        cases hd : m1.builder_data with
        | none =>
          simp only [hd, Except.map, Except.ok.injEq] at h
          refine ⟨m1, h.symm, hinv1, hst1, ?_, ?_⟩
          · simpa [last_sent, hrun, hd] using hl1
          · simpa [last_sent, hrun, hd] using hpos1
        | some buf =>
          simp only [hd] at h
          by_cases hz : m1.VAO = 0 ∨ m1.VBO = 0
          · simp only [hz, if_true, Except.map, Except.ok.injEq] at h
            have hz' : ¬ (m1.VAO ≠ 0 ∧ m1.VBO ≠ 0) := by
              rcases hz with hz | hz <;> simp [hz]
            refine ⟨m1, h.symm, hinv1, hst1, ?_, ?_⟩
            · simpa [last_sent, hrun, hd, hz'] using hl1
            · simpa [last_sent, hrun, hd, hz'] using hpos1
          · have hz' : m1.VAO ≠ 0 ∧ m1.VBO ≠ 0 := by
              constructor
              · exact fun h0 => hz (Or.inl h0)
              · exact fun h0 => hz (Or.inr h0)
            have hadd : 0 < m1.builder_added := by
              have := hinv1.2.2
              simp only [hd] at this
              exact this.2
            simp only [hz, if_false] at h
            by_cases hle : m1.builder_added ≤ buf.length
            · simp only [hle, if_true, Except.map, Except.ok.injEq] at h
              refine ⟨_, h.symm, ⟨hinv1.1, hinv1.2.1, ?_⟩, hst1, ?_, ?_⟩
              · have := hinv1.2.2
                simpa [hd] using this
              · simp [last_sent, hrun, hd, hz'.1, hz'.2]
              · intro a ha
                simp only [last_sent, hrun, hd, ne_eq, reduceCtorEq, not_false_eq_true,
                  hz'.1, hz'.2, and_self, if_true, Option.some.injEq] at ha
                omega
            · simp [hle, Except.map] at h

theorem toGLsizei_of_lt (x : Nat) (h : x < 2 ^ 31) : toGLsizei x = (x : Int) := by
  have h1 : x % 2 ^ 32 = x := Nat.mod_eq_of_lt (by omega)
  unfold toGLsizei toGLint
  rw [h1, if_pos h]

/-- Adding `n` zero bytes to a mesh that has no builder block, every allocation
succeeding. -/
theorem nu_mesh_add_bytes_fresh (m : nu_Mesh) (hd : m.builder_data = none)
    (ha : m.builder_added = 0) (n : Nat) (hn : 0 < n) (hb : n ≤ 2 ^ 63) :
    nu_mesh_add_bytes true true (some m) n (some (List.replicate n 0)) =
      .ok (some { m with builder_data := some (List.replicate n 0),
                         builder_alloced := n, builder_added := n }) := by
  have hn0 : n ≠ 0 := by omega
  have hmod : n % SIZE_MOD = n := Nat.mod_eq_of_lt (by unfold SIZE_MOD; omega)
  simp [nu_mesh_add_bytes, hn0, hd, calloc, nu_mesh_add_bytes_resize, ha, hmod,
    nu_mesh_add_bytes_copy, memcpy]

/-- Adding `n` zero bytes to a freshly created mesh and sending it. -/
theorem run_ops_add_send_fresh (m : nu_Mesh) (hd : m.builder_data = none)
    (ha : m.builder_added = 0) (hv : m.VAO ≠ 0) (hvb : m.VBO ≠ 0) (n : Nat) (hn : 0 < n)
    (hb : n ≤ 2 ^ 63) :
    run_ops (some m) [.send, .add_bytes true true n (some (List.replicate n 0))] =
      .ok (some { m with builder_data := some (List.replicate n 0), builder_alloced := n,
                         builder_added := n, last_send_size := n }) ∧
    last_sent (some m) [.send, .add_bytes true true n (some (List.replicate n 0))] =
      some n := by
  have hrun : run_ops (some m) [.add_bytes true true n (some (List.replicate n 0))] =
      .ok (some { m with builder_data := some (List.replicate n 0),
                         builder_alloced := n, builder_added := n }) := by
    simp only [run_ops, MeshOp.step]
    exact nu_mesh_add_bytes_fresh m hd ha n hn hb
  constructor
  · rw [run_ops, hrun]
    simp [MeshOp.step, nu_send_mesh, hv, hvb, Except.map]
  · rw [last_sent, hrun]
    simp [hv, hvb]

theorem sized_send_add (n : Nat) (hn : n < SIZE_MOD) (src : Option (List Byte)) :
    ∀ op ∈ [MeshOp.send, MeshOp.add_bytes true true n src], op.sized := by
  intro op hop
  simp only [List.mem_cons, List.mem_singleton, List.not_mem_nil, or_false] at hop
  rcases hop with h | h
  · rw [h]; trivial
  · rw [h]; exact hn

/-- C8, as the code has it: `nu_render_mesh` renders a mesh if it has been sent. For a
mesh obtained from `nu_create_mesh` and any history of interface calls on it that returns,
`nu_render_mesh` makes no call while no `nu_send_mesh` of the history found a builder
block and non-zero `VAO` and `VBO`; otherwise it issues exactly one `glDrawArrays`,
between binding and unbinding the mesh, with the mesh's `render_mode`, first vertex `0`
and, as count, `last_send_size / stride` converted to the 32-bit `GLsizei` of
`glDrawArrays`, which is `last_send_size / stride` itself when that is below `2 ^ 31`;
the stride is not `0` and `last_send_size` is the value of `builder_added` at the most
recent such `nu_send_mesh`. -/
theorem C8_render_draws_what_was_sent (calloc_ok : Bool) (genVAO genVBO n : Nat)
    (sizes counts types : List Nat) (m0 : nu_Mesh) (calls : List Call)
    (hcreate :
      nu_create_mesh calloc_ok genVAO genVBO n sizes counts types = .ok (some m0, calls))
    (history : List MeshOp) (hsized : ∀ op ∈ history, op.sized) (m : nu_Mesh)
    (hrun : run_ops (some m0) history = .ok (some m)) :
    m.stride ≠ 0 ∧
    (last_sent (some m0) history = none → nu_render_mesh (some m) = .ok []) ∧
    (∀ a, last_sent (some m0) history = some a →
      m.last_send_size = a ∧
      nu_render_mesh (some m) =
        .ok [.glBindVertexArray m.VAO, .glBindBuffer GL_ARRAY_BUFFER m.VBO,
             .glDrawArrays m.render_mode 0 (toGLsizei (a / m.stride)),
             .glBindVertexArray 0, .glBindBuffer GL_ARRAY_BUFFER 0] ∧
      (a / m.stride < 2 ^ 31 → toGLsizei (a / m.stride) = ((a / m.stride : Nat) : Int))) := by
  obtain ⟨hinv0, hls0⟩ :=
    nu_create_mesh_inv calloc_ok genVAO genVBO n sizes counts types m0 calls hcreate
  obtain ⟨m1, hm1, hinv, _, hl, hpos⟩ := run_ops_inv m0 hinv0 hls0 history (some m) hsized hrun
  simp only [Option.some.injEq] at hm1
  subst hm1
  refine ⟨hinv.1, ?_, ?_⟩
  · intro hnone
    simp [nu_render_mesh, hl, hnone]
  · intro a ha
    have hla : m.last_send_size = a := by simp [hl, ha]
    have hne : m.last_send_size ≠ 0 := by have := hpos a ha; omega
    have hane : a ≠ 0 := hla ▸ hne
    refine ⟨hla, ?_, toGLsizei_of_lt _⟩
    simp [nu_render_mesh, hinv.1, nu_bind_mesh, nu_unbind_mesh, hla, hane]

/-- A mesh of stride 2 draws nothing before it is sent; after four bytes are added and
sent it draws two vertices, also once the builder has been freed. -/
theorem C8_render_draws_what_was_sent_witness :
    nu_create_mesh true 1 2 1 [1] [2] [GL_FLOAT] =
      .ok (some example_created, example_created_calls) ∧
    nu_render_mesh (some example_created) = .ok [] ∧
    nu_render_mesh (some { example_created with last_send_size := 4 }) =
      .ok [.glBindVertexArray 1, .glBindBuffer GL_ARRAY_BUFFER 2,
           .glDrawArrays GL_TRIANGLES 0 2,
           .glBindVertexArray 0, .glBindBuffer GL_ARRAY_BUFFER 0] :=
  ⟨by decide,
    (C8_render_draws_what_was_sent true 1 2 1 [1] [2] [GL_FLOAT] example_created
      example_created_calls (by decide) [] (by simp) example_created (by decide)).2.1
      (by decide),
    ((C8_render_draws_what_was_sent true 1 2 1 [1] [2] [GL_FLOAT] example_created
      example_created_calls (by decide)
      [.free, .send, .add_bytes true true 4 (some [9, 8, 7, 6])]
      (by simp [MeshOp.sized, SIZE_MOD]) { example_created with last_send_size := 4 }
      (by decide)).2.2 4 (by decide)).2.1⟩

/-- C8, counterexample to the count being `last_send_size / stride` for every mesh: a
mesh of stride 1 made by `nu_create_mesh`, to which `2 ^ 32 + 3` bytes were added and sent
by calls with `size_t` arguments, has `last_send_size / stride = 2 ^ 32 + 3`, and
`glDrawArrays` receives the count `3`. -/
theorem C8_vertex_count_is_truncated :
    (nu_create_mesh true 1 2 1 [1] [1] [GL_FLOAT]).map Prod.fst =
      .ok (some example_unit_created) ∧
    run_ops (some example_unit_created)
        [.send, .add_bytes true true 4294967299 (some (List.replicate 4294967299 0))] =
      .ok (some example_big_sent) ∧
    (∀ op ∈ [MeshOp.send,
        MeshOp.add_bytes true true 4294967299 (some (List.replicate 4294967299 0))],
      op.sized) ∧
    last_sent (some example_unit_created)
        [.send, .add_bytes true true 4294967299 (some (List.replicate 4294967299 0))] =
      some 4294967299 ∧
    example_big_sent.last_send_size / example_big_sent.stride = 4294967299 ∧
    nu_render_mesh (some example_big_sent) =
      .ok [.glBindVertexArray 1, .glBindBuffer GL_ARRAY_BUFFER 2,
           .glDrawArrays GL_TRIANGLES 0 3,
           .glBindVertexArray 0, .glBindBuffer GL_ARRAY_BUFFER 0] ∧
    nu_render_mesh (some example_big_sent) ≠
      .ok [.glBindVertexArray 1, .glBindBuffer GL_ARRAY_BUFFER 2,
           .glDrawArrays GL_TRIANGLES 0 4294967299,
           .glBindVertexArray 0, .glBindBuffer GL_ARRAY_BUFFER 0] :=
  ⟨by decide,
    (run_ops_add_send_fresh example_unit_created rfl rfl (by decide) (by decide)
      4294967299 (by norm_num) (by norm_num)).1,
    sized_send_add 4294967299 (by unfold SIZE_MOD; norm_num) _,
    (run_ops_add_send_fresh example_unit_created rfl rfl (by decide) (by decide)
      4294967299 (by norm_num) (by norm_num)).2,
    by decide, by decide, by decide⟩

/-- C9, what the code does: `nu_destroy_mesh` on a handle to a mesh whose `VAO` and `VBO`
are `1` frees the builder block and the struct and sets the handle to `NULL`, and makes no
other call: neither `glDeleteVertexArrays` nor `glDeleteBuffers`. On a null handle and on
a handle to `NULL` it does nothing. -/
theorem C9_nu_destroy_mesh_keeps_gl_buffers :
    nu_destroy_mesh (some (some example_mesh)) =
      (some none, [.free (.bytes [1, 2, 3, 0]), .free (.mesh example_mesh)]) ∧
    Call.glDeleteVertexArrays example_mesh.VAO ∉
      (nu_destroy_mesh (some (some example_mesh))).2 ∧
    Call.glDeleteBuffers example_mesh.VBO ∉ (nu_destroy_mesh (some (some example_mesh))).2 ∧
    nu_destroy_mesh none = (none, []) ∧
    nu_destroy_mesh (some none) = (some none, []) := by
  refine ⟨by decide, by decide, by decide, rfl, rfl⟩

theorem packed_offset_succ (sizes counts : List Nat) (i : Nat) :
    packed_offset sizes counts (i + 1) =
      packed_offset sizes counts i + sizes.getD i 0 * counts.getD i 0 := by
  simp [packed_offset, List.range_succ]

theorem packed_offset_mono (sizes counts : List Nat) (i r : Nat) :
    packed_offset sizes counts i ≤ packed_offset sizes counts (i + r) := by
  induction r with
  | zero => exact le_refl _
  | succ r ih =>
    rw [← Nat.add_assoc, packed_offset_succ]
    omega

theorem nu_define_layout_stride_eq (sizes counts : List Nat) :
    ∀ (r i : Nat), i + r ≤ sizes.length → i + r ≤ counts.length →
      packed_offset sizes counts (i + r) < SIZE_MOD →
      nu_define_layout_stride sizes counts r i (packed_offset sizes counts i) =
        .ok (packed_offset sizes counts (i + r)) := by
  intro r
  induction r with
  | zero => intro i _ _ _; rfl
  | succ r ih =>
    intro i hs hc hlt
    have h1 : packed_offset sizes counts (i + 1) < SIZE_MOD := by
      have := packed_offset_mono sizes counts (i + 1) r
      rw [show i + 1 + r = i + (r + 1) by omega] at this
      omega
    have hsz : sizes[i]? = some (sizes.getD i 0) := by
      rw [List.getD_eq_getElem?_getD, List.getElem?_eq_getElem (by omega)]; rfl
    have hct : counts[i]? = some (counts.getD i 0) := by
      rw [List.getD_eq_getElem?_getD, List.getElem?_eq_getElem (by omega)]; rfl
    rw [packed_offset_succ] at h1
    have hm : (packed_offset sizes counts i + sizes.getD i 0 * counts.getD i 0 % SIZE_MOD) %
        SIZE_MOD = packed_offset sizes counts (i + 1) := by
      rw [packed_offset_succ, Nat.mod_eq_of_lt (by omega : _ * _ < SIZE_MOD),
        Nat.mod_eq_of_lt h1]
    simp only [nu_define_layout_stride, hsz, hct, hm]
    rw [ih (i + 1) (by omega) (by omega) (by rwa [show i + 1 + r = i + (r + 1) by omega])]
    rw [show i + 1 + r = i + (r + 1) by omega]

theorem nu_define_layout_attribs_eq (sizes counts types : List Nat) (stride : Nat) :
    ∀ (r i : Nat), i + r ≤ sizes.length → i + r ≤ counts.length → i + r ≤ types.length →
      packed_offset sizes counts (i + r) < SIZE_MOD →
      nu_define_layout_attribs sizes counts types stride r i (packed_offset sizes counts i) =
        .ok ((List.range' i r).flatMap (fun j =>
              [Call.glVertexAttribPointer (toGLuint j) (toGLint (counts.getD j 0))
                 (types.getD j 0) false (toGLsizei stride) (packed_offset sizes counts j),
               Call.glEnableVertexAttribArray (toGLuint j)]),
            packed_offset sizes counts (i + r)) := by
  intro r
  induction r with
  | zero => intro i _ _ _ _; rfl
  | succ r ih =>
    intro i hs hc ht hlt
    have h1 : packed_offset sizes counts (i + 1) < SIZE_MOD := by
      have := packed_offset_mono sizes counts (i + 1) r
      rw [show i + 1 + r = i + (r + 1) by omega] at this
      omega
    have hsz : sizes[i]? = some (sizes.getD i 0) := by
      rw [List.getD_eq_getElem?_getD, List.getElem?_eq_getElem (by omega)]; rfl
    have hct : counts[i]? = some (counts.getD i 0) := by
      rw [List.getD_eq_getElem?_getD, List.getElem?_eq_getElem (by omega)]; rfl
    have hty : types[i]? = some (types.getD i 0) := by
      rw [List.getD_eq_getElem?_getD, List.getElem?_eq_getElem (by omega)]; rfl
    rw [packed_offset_succ] at h1
    have hm : (packed_offset sizes counts i + sizes.getD i 0 * counts.getD i 0 % SIZE_MOD) %
        SIZE_MOD = packed_offset sizes counts (i + 1) := by
      rw [packed_offset_succ, Nat.mod_eq_of_lt (by omega : _ * _ < SIZE_MOD),
        Nat.mod_eq_of_lt h1]
    simp only [nu_define_layout_attribs, hsz, hct, hty, hm]
    rw [ih (i + 1) (by omega) (by omega) (by omega)
      (by rwa [show i + 1 + r = i + (r + 1) by omega])]
    simp [List.range'_succ, show i + 1 + r = i + (r + 1) by omega]

/-- C10: the vertex layout is the packed layout of the components in order. For
`num_components ≥ 1` and arrays holding at least `num_components` entries whose total
size fits a `size_t`, the stride `nu_define_layout` returns is the sum over `i` of
`component_sizes[i] * component_counts[i]`; attribute `i` is declared with count
`component_counts[i]`, type `component_types[i]`, that stride (index, count and stride as
the 32-bit parameters of `glVertexAttribPointer` receive them) and, as byte offset, the
sum over `j < i`; the offset after the last attribute equals the stride; and
`nu_create_mesh` stores that stride in the mesh it returns. For the example of the header
(sizes 4, 4, 4 and counts 3, 2, 1) the stride is 24 and the offsets are 0, 12, 20. -/
theorem C10_packed_vertex_layout (genVAO genVBO VAO VBO num_components : Nat)
    (component_sizes component_counts component_types : List Nat)
    (hn : 1 ≤ num_components) (hs : num_components ≤ component_sizes.length)
    (hc : num_components ≤ component_counts.length)
    (ht : num_components ≤ component_types.length)
    (hsum : packed_offset component_sizes component_counts num_components < SIZE_MOD) :
    nu_define_layout genVAO genVBO VAO VBO num_components component_sizes component_counts
        component_types =
      .ok (genVAO, genVBO, packed_offset component_sizes component_counts num_components,
        [.glDeleteVertexArrays VAO, .glGenVertexArrays, .glBindVertexArray genVAO,
         .glDeleteBuffers VBO, .glGenBuffers, .glBindBuffer GL_ARRAY_BUFFER genVBO] ++
        (List.range num_components).flatMap (fun i =>
          [Call.glVertexAttribPointer (toGLuint i) (toGLint (component_counts.getD i 0))
             (component_types.getD i 0) false
             (toGLsizei (packed_offset component_sizes component_counts num_components))
             (packed_offset component_sizes component_counts i),
           Call.glEnableVertexAttribArray (toGLuint i)])) ∧
    (nu_define_layout_attribs component_sizes component_counts component_types
        (packed_offset component_sizes component_counts num_components)
        num_components 0 0).map Prod.snd =
      .ok (packed_offset component_sizes component_counts num_components) ∧
    (packed_offset component_sizes component_counts num_components ≠ 0 →
      (nu_create_mesh true genVAO genVBO num_components component_sizes component_counts
          component_types).map (fun r => r.1.map nu_Mesh.stride) =
        .ok (some (packed_offset component_sizes component_counts num_components))) ∧
    nu_define_layout 1 2 0 0 3 [4, 4, 4] [3, 2, 1] [GL_FLOAT, GL_FLOAT, GL_INT] =
      .ok (1, 2, 24,
        [.glDeleteVertexArrays 0, .glGenVertexArrays, .glBindVertexArray 1,
         .glDeleteBuffers 0, .glGenBuffers, .glBindBuffer GL_ARRAY_BUFFER 2,
         .glVertexAttribPointer 0 3 GL_FLOAT false 24 0, .glEnableVertexAttribArray 0,
         .glVertexAttribPointer 1 2 GL_FLOAT false 24 12, .glEnableVertexAttribArray 1,
         .glVertexAttribPointer 2 1 GL_INT false 24 20, .glEnableVertexAttribArray 2]) := by
  have h0 : packed_offset component_sizes component_counts 0 = 0 := rfl
  have hstride := nu_define_layout_stride_eq component_sizes component_counts
    num_components 0 (by omega) (by omega) (by simpa using hsum)
  have hattr := fun stride => nu_define_layout_attribs_eq component_sizes component_counts
    component_types stride num_components 0 (by omega) (by omega) (by omega)
    (by simpa using hsum)
  rw [h0, Nat.zero_add] at hstride
  simp only [h0, Nat.zero_add, ← List.range_eq_range'] at hattr
  have hdef : ∀ a b, nu_define_layout genVAO genVBO a b num_components component_sizes
      component_counts component_types =
      .ok (genVAO, genVBO, packed_offset component_sizes component_counts num_components,
        [.glDeleteVertexArrays a, .glGenVertexArrays, .glBindVertexArray genVAO,
         .glDeleteBuffers b, .glGenBuffers, .glBindBuffer GL_ARRAY_BUFFER genVBO] ++
        (List.range num_components).flatMap (fun i =>
          [Call.glVertexAttribPointer (toGLuint i) (toGLint (component_counts.getD i 0))
             (component_types.getD i 0) false
             (toGLsizei (packed_offset component_sizes component_counts num_components))
             (packed_offset component_sizes component_counts i),
           Call.glEnableVertexAttribArray (toGLuint i)])) := by
    intro a b
    simp only [nu_define_layout, hstride, hattr]
  refine ⟨hdef VAO VBO, ?_, ?_, by decide⟩
  · rw [hattr]; rfl
  · intro hne
    have hn0 : num_components ≠ 0 := by omega
    simp only [nu_create_mesh, hn0, if_false, hdef, hne]
    rfl

/-- The example of the header: three components of sizes 4, 4, 4 and counts 3, 2, 1 give
stride 24, and the mesh created for them has that stride. -/
theorem C10_packed_vertex_layout_witness :
    packed_offset [4, 4, 4] [3, 2, 1] 3 = 24 ∧
    (nu_define_layout 1 2 0 0 3 [4, 4, 4] [3, 2, 1] [GL_FLOAT, GL_FLOAT, GL_INT]).map
      (fun r => r.2.2.1) = .ok 24 ∧
    (nu_create_mesh true 1 2 3 [4, 4, 4] [3, 2, 1] [GL_FLOAT, GL_FLOAT, GL_INT]).map
      (fun r => r.1.map nu_Mesh.stride) = .ok (some 24) :=
  ⟨by decide, by decide,
    (C10_packed_vertex_layout 1 2 0 0 3 [4, 4, 4] [3, 2, 1] [GL_FLOAT, GL_FLOAT, GL_INT]
      (by decide) (by decide) (by decide) (by decide) (by decide)).2.2.1 (by decide)⟩

theorem packed_offset_eq_zero_iff (sizes counts : List Nat) (n : Nat) :
    packed_offset sizes counts n = 0 ↔
      ∀ i, i < n → sizes.getD i 0 = 0 ∨ counts.getD i 0 = 0 := by
  induction n with
  | zero => simp [packed_offset]
  | succ n ih =>
    rw [packed_offset_succ, Nat.add_eq_zero_iff, ih, Nat.mul_eq_zero]
    constructor
    · rintro ⟨h1, h2⟩ i hi
      by_cases hin : i = n
      · subst hin; exact h2
      · exact h1 i (by omega)
    · intro h
      exact ⟨fun i hi => h i (by omega), h n (by omega)⟩

/-- The function `nu_define_layout` on arrays of at least `num_components` entries whose
total size fits a `size_t`. -/
theorem nu_define_layout_eq (genVAO genVBO VAO VBO n : Nat) (sizes counts types : List Nat)
    (hs : n ≤ sizes.length) (hc : n ≤ counts.length) (ht : n ≤ types.length)
    (hsum : packed_offset sizes counts n < SIZE_MOD) :
    nu_define_layout genVAO genVBO VAO VBO n sizes counts types =
      .ok (genVAO, genVBO, packed_offset sizes counts n,
        [.glDeleteVertexArrays VAO, .glGenVertexArrays, .glBindVertexArray genVAO,
         .glDeleteBuffers VBO, .glGenBuffers, .glBindBuffer GL_ARRAY_BUFFER genVBO] ++
        (List.range n).flatMap (fun i =>
          [Call.glVertexAttribPointer (toGLuint i) (toGLint (counts.getD i 0))
             (types.getD i 0) false (toGLsizei (packed_offset sizes counts n))
             (packed_offset sizes counts i),
           Call.glEnableVertexAttribArray (toGLuint i)])) := by
  have h0 : packed_offset sizes counts 0 = 0 := rfl
  have hstride := nu_define_layout_stride_eq sizes counts n 0 (by omega) (by omega)
    (by simpa using hsum)
  have hattr := fun stride => nu_define_layout_attribs_eq sizes counts types stride n 0
    (by omega) (by omega) (by omega) (by simpa using hsum)
  rw [h0, Nat.zero_add] at hstride
  simp only [h0, Nat.zero_add, ← List.range_eq_range'] at hattr
  simp only [nu_define_layout, hstride, hattr]

/-- Whatever its arguments, a mesh `nu_create_mesh` returns has a non-zero stride, an
empty builder, `last_send_size` `0` and render mode `GL_TRIANGLES`. -/
theorem nu_create_mesh_fresh (calloc_ok : Bool) (genVAO genVBO n : Nat)
    (sizes counts types : List Nat) (m : nu_Mesh) (calls : List Call)
    (h : nu_create_mesh calloc_ok genVAO genVBO n sizes counts types = .ok (some m, calls)) :
    n ≠ 0 ∧ m.stride ≠ 0 ∧ m.builder_data = none ∧ m.builder_added = 0 ∧
      m.builder_alloced = 0 ∧ m.last_send_size = 0 ∧ m.render_mode = GL_TRIANGLES := by
  unfold nu_create_mesh at h
  split_ifs at h with h1 h2
  · simp at h
  · simp at h
  · split at h
    · simp at h
    · rename_i vao vbo stride cs _
      split_ifs at h with h3
      · simp at h
      · simp only [Except.ok.injEq, Prod.mk.injEq, Option.some.injEq] at h
        rw [← h.1]
        exact ⟨h1, h3, rfl, rfl, rfl, rfl, rfl⟩

/-- C11: `nu_create_mesh` returns the null sentinel when `num_components` is `0`, making
no library call, and when the stride `nu_define_layout` computes is `0`; otherwise, the
allocation succeeding, it returns a mesh with that non-zero stride, whose builder is empty
(`builder_data` null, `builder_added` and `builder_alloced` `0`), whose `last_send_size`
is `0` and whose `render_mode` is `GL_TRIANGLES`. For arrays of at least `num_components`
entries whose total size fits a `size_t`, the stride is `0` exactly when every component
has size `0` or count `0`, and the stride of the mesh is the packed size. Whatever the
arguments, a mesh it returns has the properties above. -/
theorem C11_nu_create_mesh_sentinel_and_fresh_mesh (calloc_ok : Bool)
    (genVAO genVBO num_components : Nat)
    (component_sizes component_counts component_types : List Nat)
    (hs : num_components ≤ component_sizes.length)
    (hc : num_components ≤ component_counts.length)
    (ht : num_components ≤ component_types.length)
    (hsum : packed_offset component_sizes component_counts num_components < SIZE_MOD) :
    nu_create_mesh calloc_ok genVAO genVBO 0 component_sizes component_counts
        component_types = .ok (none, []) ∧
    (∀ (vao vbo stride : Nat) (calls : List Call), num_components ≠ 0 → calloc_ok = true →
      nu_define_layout genVAO genVBO 0 0 num_components component_sizes component_counts
          component_types = .ok (vao, vbo, stride, calls) →
      (stride = 0 →
        (nu_create_mesh calloc_ok genVAO genVBO num_components component_sizes
            component_counts component_types).map Prod.fst = .ok none) ∧
      (stride ≠ 0 →
        nu_create_mesh calloc_ok genVAO genVBO num_components component_sizes
            component_counts component_types =
          .ok (some { builder_data := none, builder_alloced := 0, builder_added := 0,
                      stride := stride, last_send_size := 0, VAO := vao, VBO := vbo,
                      render_mode := GL_TRIANGLES }, calls))) ∧
    (num_components ≠ 0 → calloc_ok = true →
      (∀ i, i < num_components →
        component_sizes.getD i 0 = 0 ∨ component_counts.getD i 0 = 0) →
      (nu_create_mesh calloc_ok genVAO genVBO num_components component_sizes
          component_counts component_types).map Prod.fst = .ok none) ∧
    (num_components ≠ 0 → calloc_ok = true →
      ¬ (∀ i, i < num_components →
        component_sizes.getD i 0 = 0 ∨ component_counts.getD i 0 = 0) →
      packed_offset component_sizes component_counts num_components ≠ 0 ∧
      (nu_create_mesh calloc_ok genVAO genVBO num_components component_sizes
          component_counts component_types).map Prod.fst =
        .ok (some { builder_data := none, builder_alloced := 0, builder_added := 0,
                    stride := packed_offset component_sizes component_counts num_components,
                    last_send_size := 0, VAO := genVAO, VBO := genVBO,
                    render_mode := GL_TRIANGLES })) ∧
    (∀ (m : nu_Mesh) (calls : List Call),
      nu_create_mesh calloc_ok genVAO genVBO num_components component_sizes
          component_counts component_types = .ok (some m, calls) →
      num_components ≠ 0 ∧ m.stride ≠ 0 ∧ m.builder_data = none ∧ m.builder_added = 0 ∧
        m.builder_alloced = 0 ∧ m.last_send_size = 0 ∧ m.render_mode = GL_TRIANGLES) := by
  have hdef := nu_define_layout_eq genVAO genVBO 0 0 num_components component_sizes
    component_counts component_types hs hc ht hsum
  refine ⟨by simp [nu_create_mesh], ?_, ?_, ?_, ?_⟩
  · intro vao vbo stride calls hn hok hlay
    subst hok
    constructor
    · intro h0
      simp only [nu_create_mesh, hn, if_false, hlay, h0]
      rfl
    · intro h0
      simp only [nu_create_mesh, hn, if_false, hlay, h0]
      rfl
  · intro hn hok hall
    have hz := (packed_offset_eq_zero_iff component_sizes component_counts
      num_components).2 hall
    subst hok
    simp only [nu_create_mesh, hn, if_false, hdef, hz]
    rfl
  · intro hn hok hnot
    have hz : packed_offset component_sizes component_counts num_components ≠ 0 :=
      fun h => hnot ((packed_offset_eq_zero_iff component_sizes component_counts
        num_components).1 h)
    subst hok
    refine ⟨hz, ?_⟩
    simp only [nu_create_mesh, hn, if_false, hdef, hz]
    rfl
  · intro m calls h
    exact nu_create_mesh_fresh calloc_ok genVAO genVBO num_components component_sizes
      component_counts component_types m calls h

/-- One component of size 1 and count 2 gives the fresh mesh of stride 2; one component of
size 4 and count 0 has stride 0 and gives `NULL`; no component gives `NULL` without any
call. -/
theorem C11_nu_create_mesh_sentinel_and_fresh_mesh_witness :
    nu_create_mesh true 1 2 0 [1] [2] [GL_FLOAT] = .ok (none, []) ∧
    (nu_create_mesh true 1 2 1 [4] [0] [GL_FLOAT]).map Prod.fst = .ok none ∧
    (packed_offset [1] [2] 1 ≠ 0 ∧
      (nu_create_mesh true 1 2 1 [1] [2] [GL_FLOAT]).map Prod.fst =
        .ok (some { builder_data := none, builder_alloced := 0, builder_added := 0,
                    stride := packed_offset [1] [2] 1, last_send_size := 0, VAO := 1,
                    VBO := 2, render_mode := GL_TRIANGLES })) ∧
    (nu_create_mesh true 1 2 1 [1] [2] [GL_FLOAT]).map Prod.fst = .ok (some example_created) :=
  ⟨(C11_nu_create_mesh_sentinel_and_fresh_mesh true 1 2 1 [1] [2] [GL_FLOAT] (by decide)
      (by decide) (by decide) (by decide)).1,
    (C11_nu_create_mesh_sentinel_and_fresh_mesh true 1 2 1 [4] [0] [GL_FLOAT] (by decide)
      (by decide) (by decide) (by decide)).2.2.1 (by decide) rfl (by decide),
    (C11_nu_create_mesh_sentinel_and_fresh_mesh true 1 2 1 [1] [2] [GL_FLOAT] (by decide)
      (by decide) (by decide) (by decide)).2.2.2.1 (by decide) rfl (by decide),
    by decide⟩

end NuGL
